import Mathlib

/-!
# Thynk ROI modeler (`src/app.js`): the recalculation pass

A shallow embedding of the recalculation engine of `src/app.js` and the
properties of it that the specification states.

Conventions of the embedding.

* JavaScript numbers are modelled as exact rationals (`ℚ`): rounding, `NaN`
  and the infinities of IEEE doubles are outside the model.
* A JavaScript object holding numbers (`mod.values`, `mod.defaults`) is a map
  from keys to `Option ℚ`; `none` is a nullish entry (`null` or a missing key),
  which is all that the operator `??` can see.
* `state.inputs.services` is a map from keys to the truthiness of the entry.
* The page is modelled by what the pass writes to it: for every module the
  badge and the argument of `writeOutputs` (before formatting), and the
  arguments handed to `renderSummaryTable` / `renderCharts`.  In `runPass` and
  `recalcAndRender` every module of `state.modules` has its card, as `init`
  builds one per module; `recalcAndRenderOnPage` is the pass on a document in
  which a card may be missing.
* A body of statements that may throw ends in an `Outcome`, which keeps the
  state reached at the throw, since writes made before it persist.
-/

namespace IonDavinci

/-! ## Data model -/

/-- A numeric JavaScript object: key to value, `none` for a nullish entry. -/
abbrev Obj := String → Option ℚ

/-- The numeric object with the listed entries, each key listed once. -/
def Obj.ofList (l : List (String × ℚ)) : Obj := fun key => l.lookup key

/-- The operator `a ?? b` with a numeric right operand. -/
def nullish (a : Option ℚ) (b : ℚ) : ℚ :=
  match a with
  | some v => v
  | none => b

/-- One entry of `state.inputs.prices`. -/
structure PricePair where
  medicare : ℚ
  commercial : ℚ

/-- The price table `state.inputs.prices`. -/
structure Prices where
  clinic : PricePair
  imaging : PricePair
  proc : PricePair
  rob : PricePair

/-- The global scenario configuration `state.inputs`. -/
structure Inputs where
  annualCts : ℚ
  monthlyLcs : ℚ
  annualProstateMrs : ℚ
  commercialPct : ℚ
  retainedPct : ℚ
  ionCount : ℚ
  ionCapacity : ℚ
  dvCount : ℚ
  dvCapacity : ℚ
  prices : Prices
  services : String → Bool

/-- The capacity ledger `state.capacity`. -/
structure Capacity where
  ionRemaining : ℚ
  dvRemaining : ℚ
deriving DecidableEq

/-- An element of `state.modules`: a catalogue entry of `MODULES` together with
its editable `values` (`init`: `{...m, values: {...m.defaults}}`). -/
structure Module where
  id : String
  name : String
  kind : String
  enabled : Bool
  defaults : Obj
  values : Obj
  requiredServices : List String

/-- The global `state`. -/
structure State where
  inputs : Inputs
  capacity : Capacity
  modules : List Module

/-- The argument of `writeOutputs`. -/
structure Outputs where
  clinics : ℚ
  procs : ℚ
  rob : ℚ
  ion : ℚ
  revenue : ℚ
  leakage : ℚ
deriving DecidableEq

/-- An element of `summaryRows`. -/
structure SummaryRow where
  id : String
  label : String
  clinics : ℚ
  fups : ℚ
  procs : ℚ
  rob : ℚ
  ion : ℚ
  revenue : ℚ
deriving DecidableEq

/-- The record `totals`. -/
structure Totals where
  clinics : ℚ
  fups : ℚ
  procs : ℚ
  rob : ℚ
  ion : ℚ
  revenue : ℚ
deriving DecidableEq

/-- What the pass writes on the card of one module. -/
structure CardView where
  badgeText : String
  badgeClass : String
  outputs : Outputs
deriving DecidableEq

/-- The two shared device pools of the ledger. -/
inductive Pool where
  | ion
  | dv
deriving DecidableEq

/-! ## Helpers of `app.js` -/

/-- The function `clamp(n, min, max)`: `Math.max(min, Math.min(max, num))` (the
`isNaN` branch does not arise for a rational). -/
def clamp (n lo hi : ℚ) : ℚ := max lo (min hi n)

/-- The function `serviceCoverageFactor(req)` over `state.inputs.services`. -/
def serviceCoverageFactor (services : String → Bool) (req : List String) : ℚ :=
  if req.length = 0 then 1
  else if req.all (fun key => services key) then 1 else 2 / 5

/-- The local `blend` of `blendedPrices`, with `w = commercialPct / 100`. -/
def blend (inputs : Inputs) (a b : ℚ) : ℚ :=
  (1 - inputs.commercialPct / 100) * a + inputs.commercialPct / 100 * b

/-- The record returned by `blendedPrices()`. -/
structure Blended where
  clinic : ℚ
  imaging : ℚ
  proc : ℚ
  rob : ℚ
deriving DecidableEq

/-- The function `blendedPrices()`. -/
def blendedPrices (inputs : Inputs) : Blended :=
  { clinic := blend inputs inputs.prices.clinic.medicare inputs.prices.clinic.commercial
    imaging := blend inputs inputs.prices.imaging.medicare inputs.prices.imaging.commercial
    proc := blend inputs inputs.prices.proc.medicare inputs.prices.proc.commercial
    rob := blend inputs inputs.prices.rob.medicare inputs.prices.rob.commercial }

/-! ## The body of `recalcAndRender`, local by local -/

/-- The expression `mod.values[f] ?? mod.defaults[f]` read as a number.  Every
catalogue entry defines the defaults its kind reads; a default that is absent
as well is read as `0` here. -/
def field (mod : Module) (f : String) : ℚ :=
  match mod.values f with
  | some v => v
  | none => nullish (mod.defaults f) 0

/-- Local `svcOkFactor`. -/
def svcOkFactor (inputs : Inputs) (mod : Module) : ℚ :=
  serviceCoverageFactor inputs.services mod.requiredServices

/-- Local `retained`. -/
def retained (inputs : Inputs) : ℚ := inputs.retainedPct / 100

/-- Local `baseExams` (exposure). -/
def baseExams (inputs : Inputs) (mod : Module) : ℚ :=
  if mod.kind = "lcs" then
    nullish (mod.values "lcsMonthlyOverride") inputs.monthlyLcs * 12
  else if mod.kind = "mr" then
    nullish (mod.values "annualMrOverride") inputs.annualProstateMrs
  else
    nullish (mod.values "ctsPerYear") 0

/-- Local `detPct`. -/
def detPct (mod : Module) : ℚ := field mod "detectionPct" / 100

/-- Local `actionable`. -/
def actionable (inputs : Inputs) (mod : Module) : ℚ :=
  if mod.kind = "lcs" then baseExams inputs mod * (field mod "actionablePct" / 100)
  else baseExams inputs mod * detPct mod

/-- Local `capTh`. -/
def capTh (mod : Module) : ℚ := nullish (mod.values "captureThynk") 70 / 100

/-- Local `capBl`. -/
def capBl (mod : Module) : ℚ := nullish (mod.values "captureBaseline") 30 / 100

/-- Local `clinicsTh`. -/
def clinicsTh (inputs : Inputs) (mod : Module) : ℚ := actionable inputs mod * capTh mod

/-- Local `clinicsBl`. -/
def clinicsBl (inputs : Inputs) (mod : Module) : ℚ := actionable inputs mod * capBl mod

/-- Local `conv`: conversion rate with the service coverage factor. -/
def conv (inputs : Inputs) (mod : Module) : ℚ :=
  field mod "conversionToProcedure" / 100 * svcOkFactor inputs mod

/-- Local `procThRaw`. -/
def procThRaw (inputs : Inputs) (mod : Module) : ℚ := clinicsTh inputs mod * conv inputs mod

/-- Local `procBlRaw`. -/
def procBlRaw (inputs : Inputs) (mod : Module) : ℚ := clinicsBl inputs mod * conv inputs mod

/-- Local `specialistCap`. -/
def specialistCap (mod : Module) : ℚ :=
  field mod "specialists" * field mod "capacityPerSpecialist"

/-- Local `procThCapped`. -/
def procThCapped (inputs : Inputs) (mod : Module) : ℚ :=
  min (procThRaw inputs mod) (specialistCap mod)

/-- Local `procBlCapped`. -/
def procBlCapped (inputs : Inputs) (mod : Module) : ℚ :=
  min (procBlRaw inputs mod) (specialistCap mod)

/-- Local `robShare`. -/
def robShare (mod : Module) : ℚ := field mod "roboticShareOfProcedures" / 100

/-- Local `ionShare`. -/
def ionShare (mod : Module) : ℚ := field mod "ionShareOfProcedures" / 100

/-- The share of procedures routed to a pool. -/
def share (mod : Module) : Pool → ℚ
  | Pool.ion => ionShare mod
  | Pool.dv => robShare mod

/-- The first value of `robTh` / `ionTh`: the amount requested from a pool. -/
def requested (inputs : Inputs) (mod : Module) (pool : Pool) : ℚ :=
  procThCapped inputs mod * share mod pool

/-- The counter of a pool (`robCapAvail` / `ionCapAvail` when read before the draw). -/
def Capacity.remaining (cap : Capacity) : Pool → ℚ
  | Pool.ion => cap.ionRemaining
  | Pool.dv => cap.dvRemaining

/-- The flags `robWarn` / `ionWarn`. -/
def warn (inputs : Inputs) (cap : Capacity) (mod : Module) (pool : Pool) : Bool :=
  decide (requested inputs mod pool > cap.remaining pool)

/-- The final value of `robTh` / `ionTh`: the amount granted by a pool. -/
def granted (inputs : Inputs) (cap : Capacity) (mod : Module) (pool : Pool) : ℚ :=
  if requested inputs mod pool > cap.remaining pool then cap.remaining pool
  else requested inputs mod pool

/-- The ledger after the two statements `state.capacity.* -= *Th`. -/
def draw (inputs : Inputs) (cap : Capacity) (mod : Module) : Capacity :=
  { dvRemaining := cap.dvRemaining - granted inputs cap mod Pool.dv
    ionRemaining := cap.ionRemaining - granted inputs cap mod Pool.ion }

/-- The factor `mod.values.followupsPerProcedure ?? mod.defaults.followupsPerProcedure`. -/
def followups (mod : Module) : ℚ := field mod "followupsPerProcedure"

/-- Local `fupsTh`. -/
def fupsTh (inputs : Inputs) (mod : Module) : ℚ := procThCapped inputs mod * followups mod

/-- The baseline follow-ups `procBlCapped * followupsPerProcedure`. -/
def fupsBl (inputs : Inputs) (mod : Module) : ℚ := procBlCapped inputs mod * followups mod

/-- Local `nonRobTh`. -/
def nonRobTh (inputs : Inputs) (cap : Capacity) (mod : Module) : ℚ :=
  max (procThCapped inputs mod - granted inputs cap mod Pool.dv) 0

/-- Local `nonRobBl`. -/
def nonRobBl (inputs : Inputs) (cap : Capacity) (mod : Module) : ℚ :=
  max (procBlCapped inputs mod - min (procBlCapped inputs mod) (granted inputs cap mod Pool.dv)) 0

/-- Local `procRevTh`. -/
def procRevTh (inputs : Inputs) (cap : Capacity) (mod : Module) : ℚ :=
  retained inputs * (nonRobTh inputs cap mod * (blendedPrices inputs).proc
    + granted inputs cap mod Pool.dv * (blendedPrices inputs).rob)

/-- Local `procRevBl`. -/
def procRevBl (inputs : Inputs) (cap : Capacity) (mod : Module) : ℚ :=
  retained inputs * (nonRobBl inputs cap mod * (blendedPrices inputs).proc
    + min (procBlCapped inputs mod) (granted inputs cap mod Pool.dv) * (blendedPrices inputs).rob)

/-- Local `revenueDelta`. -/
def revenueDelta (inputs : Inputs) (cap : Capacity) (mod : Module) : ℚ :=
  (clinicsTh inputs mod * (blendedPrices inputs).clinic
      + fupsTh inputs mod * (blendedPrices inputs).imaging + procRevTh inputs cap mod)
    - (clinicsBl inputs mod * (blendedPrices inputs).clinic
      + fupsBl inputs mod * (blendedPrices inputs).imaging + procRevBl inputs cap mod)

/-- Local `leakageAvoided`. -/
def leakageAvoided (inputs : Inputs) (mod : Module) : ℚ :=
  max ((procThCapped inputs mod - procBlCapped inputs mod) * retained inputs) 0

/-- The badge text chosen from the two flags. -/
def badgeText (robWarn ionWarn : Bool) : String :=
  if robWarn && ionWarn then "da Vinci & ION capped"
  else if robWarn then "da Vinci capped"
  else if ionWarn then "ION capped"
  else "OK"

/-- The badge class chosen from the two flags. -/
def badgeClass (robWarn ionWarn : Bool) : String :=
  if robWarn && ionWarn then "badge badge--warn"
  else if robWarn then "badge badge--warn"
  else if ionWarn then "badge badge--warn"
  else "badge badge--ok"

/-- The card of an enabled module, drawn against the ledger `cap`. -/
def enabledCard (inputs : Inputs) (cap : Capacity) (mod : Module) : CardView :=
  { badgeText := badgeText (warn inputs cap mod Pool.dv) (warn inputs cap mod Pool.ion)
    badgeClass := badgeClass (warn inputs cap mod Pool.dv) (warn inputs cap mod Pool.ion)
    outputs :=
      { clinics := clinicsTh inputs mod
        procs := procThCapped inputs mod
        rob := granted inputs cap mod Pool.dv
        ion := granted inputs cap mod Pool.ion
        revenue := revenueDelta inputs cap mod
        leakage := leakageAvoided inputs mod } }

/-- The summary row of an enabled module, drawn against the ledger `cap`. -/
def enabledRow (inputs : Inputs) (cap : Capacity) (mod : Module) : SummaryRow :=
  { id := mod.id
    label := mod.name
    clinics := clinicsTh inputs mod - clinicsBl inputs mod
    fups := fupsTh inputs mod - fupsBl inputs mod
    procs := procThCapped inputs mod - procBlCapped inputs mod
    rob := granted inputs cap mod Pool.dv
      - min (procBlCapped inputs mod) (granted inputs cap mod Pool.dv)
    ion := granted inputs cap mod Pool.ion
      - min (procBlCapped inputs mod) (granted inputs cap mod Pool.ion)
    revenue := revenueDelta inputs cap mod }

/-- The six statements `totals.* += ...` of an enabled module. -/
def addTotals (inputs : Inputs) (cap : Capacity) (mod : Module) (totals : Totals) : Totals :=
  { clinics := totals.clinics + (clinicsTh inputs mod - clinicsBl inputs mod)
    fups := totals.fups + (fupsTh inputs mod - fupsBl inputs mod)
    procs := totals.procs + (procThCapped inputs mod - procBlCapped inputs mod)
    rob := totals.rob + (granted inputs cap mod Pool.dv
      - min (procBlCapped inputs mod) (granted inputs cap mod Pool.dv))
    ion := totals.ion + (granted inputs cap mod Pool.ion
      - min (procBlCapped inputs mod) (granted inputs cap mod Pool.ion))
    revenue := totals.revenue + revenueDelta inputs cap mod }

/-- The card written for a disabled module. -/
def offCard : CardView :=
  { badgeText := "Off"
    badgeClass := "badge badge--off"
    outputs := { clinics := 0, procs := 0, rob := 0, ion := 0, revenue := 0, leakage := 0 } }

/-- The summary row pushed for a disabled module. -/
def offRow (mod : Module) : SummaryRow :=
  { id := mod.id, label := mod.name, clinics := 0, fups := 0, procs := 0, rob := 0, ion := 0,
    revenue := 0 }

/-! ## The pass -/

/-- Everything the loop of `recalcAndRender` mutates: the ledger, the cards
written so far (by module id), `summaryRows` and `totals`. -/
structure PassState where
  capacity : Capacity
  cards : List (String × CardView)
  summaryRows : List SummaryRow
  totals : Totals
deriving DecidableEq

/-- One call of the callback of `state.modules.forEach`. -/
def moduleStep (inputs : Inputs) (acc : PassState) (mod : Module) : PassState :=
  if mod.enabled = false then
    { acc with
      cards := acc.cards ++ [(mod.id, offCard)]
      summaryRows := acc.summaryRows ++ [offRow mod] }
  else
    { capacity := draw inputs acc.capacity mod
      cards := acc.cards ++ [(mod.id, enabledCard inputs acc.capacity mod)]
      summaryRows := acc.summaryRows ++ [enabledRow inputs acc.capacity mod]
      totals := addTotals inputs acc.capacity mod acc.totals }

/-- The ledger as reset at the start of a pass. -/
def resetCapacity (inputs : Inputs) : Capacity :=
  { ionRemaining := inputs.ionCount * inputs.ionCapacity
    dvRemaining := inputs.dvCount * inputs.dvCapacity }

/-- The initial capacity of a pool, `count * perUnitCapacity`. -/
def poolCapacity (inputs : Inputs) (pool : Pool) : ℚ := (resetCapacity inputs).remaining pool

/-- The state of the loop before the first module. -/
def passStart (inputs : Inputs) : PassState :=
  { capacity := resetCapacity inputs
    cards := []
    summaryRows := []
    totals := { clinics := 0, fups := 0, procs := 0, rob := 0, ion := 0, revenue := 0 } }

/-- The loop `state.modules.forEach(...)` after the reset. -/
def runPass (inputs : Inputs) (modules : List Module) : PassState :=
  modules.foldl (moduleStep inputs) (passStart inputs)

/-- The function `recalcAndRender()`: the state it leaves (only the ledger
changes) and what it has written and handed to the renderers. -/
def recalcAndRender (state : State) : State × PassState :=
  ({ state with capacity := (runPass state.inputs state.modules).capacity },
    runPass state.inputs state.modules)

/-- The ledger before the first module and after each module of the pass. -/
def ledgerTrace (inputs : Inputs) (modules : List Module) : List Capacity :=
  (modules.scanl (moduleStep inputs) (passStart inputs)).map (fun acc => acc.capacity)

/-- The amount a card reports as granted by a pool (`rob` / `ion`). -/
def Outputs.granted (o : Outputs) : Pool → ℚ
  | Pool.ion => o.ion
  | Pool.dv => o.rob

/-- The amounts granted by a pool, card by card, in the order written. -/
def grantedList (p : PassState) (pool : Pool) : List ℚ :=
  p.cards.map (fun c => c.2.outputs.granted pool)

/-- Whether the badge of a card reports the pool as capped. -/
def CardView.capped (c : CardView) : Pool → Bool
  | Pool.ion => c.badgeText = "ION capped" || c.badgeText = "da Vinci & ION capped"
  | Pool.dv => c.badgeText = "da Vinci capped" || c.badgeText = "da Vinci & ION capped"

/-- Whether the badges report the pool as capped, card by card, in the order written. -/
def cappedList (p : PassState) (pool : Pool) : List Bool :=
  p.cards.map (fun c => c.2.capped pool)

/-! ## Concrete scenarios -/

/-- The service map of the initial `state.inputs.services`: its eight keys are true. -/
def defaultServices : String → Bool := fun key =>
  ["radOnc", "chemo", "vascular", "ip", "gyn", "ctSurg", "urology", "giOnc"].contains key

/-- The initial `state.inputs`. -/
def defaultInputs : Inputs :=
  { annualCts := 100000
    monthlyLcs := 250
    annualProstateMrs := 500
    commercialPct := 10
    retainedPct := 75
    ionCount := 2
    ionCapacity := 250
    dvCount := 3
    dvCapacity := 275
    prices :=
      { clinic := { medicare := 150, commercial := 280 }
        imaging := { medicare := 250, commercial := 520 }
        proc := { medicare := 5000, commercial := 11000 }
        rob := { medicare := 6500, commercial := 14000 } }
    services := defaultServices }

/-- The initial inputs with a da Vinci count of -1 and 100 procedures per device. -/
def negativeCountInputs : Inputs :=
  { defaultInputs with dvCount := -1, dvCapacity := 100 }

/-- The initial inputs with one device of capacity 100 in each pool. -/
def scenarioInputs : Inputs :=
  { defaultInputs with ionCount := 1, ionCapacity := 100, dvCount := 1, dvCapacity := 100 }

/-- A CT module with 80 exams a year, all of them detected, captured and
converted, staffed for 1000 procedures, sending `robPct` percent of its
procedures to da Vinci and none to ION. -/
def scenarioModule (id : String) (robPct : ℚ) : Module :=
  { id := id
    name := id
    kind := "ct"
    enabled := true
    defaults := Obj.ofList []
    values := Obj.ofList
      [("ctsPerYear", 80), ("detectionPct", 100), ("captureThynk", 100), ("captureBaseline", 0),
        ("conversionToProcedure", 100), ("roboticShareOfProcedures", robPct),
        ("ionShareOfProcedures", 0), ("followupsPerProcedure", 1), ("specialists", 1),
        ("capacityPerSpecialist", 1000)]
    requiredServices := [] }

/-- The inputs with one service marked unavailable, all other inputs equal. -/
def withServiceOff (inputs : Inputs) (key : String) : Inputs :=
  { inputs with services := Function.update inputs.services key false }

/-- A CT module that requires the services `ip` and `ctSurg` and converts
`convPct` percent of its clinic visits to procedures. -/
def gatedModule (convPct : ℚ) : Module :=
  { id := "g"
    name := "g"
    kind := "ct"
    enabled := true
    defaults := Obj.ofList []
    values := Obj.ofList [("conversionToProcedure", convPct)]
    requiredServices := ["ip", "ctSurg"] }

/-- A CT module with 100 exams a year, all of them detected, and a capture rate
under the platform of 150 %. -/
def overCaptureModule : Module :=
  { id := "o"
    name := "o"
    kind := "ct"
    enabled := true
    defaults := Obj.ofList []
    values := Obj.ofList
      [("ctsPerYear", 100), ("detectionPct", 100), ("captureThynk", 150), ("captureBaseline", 30),
        ("conversionToProcedure", 20), ("roboticShareOfProcedures", 10),
        ("ionShareOfProcedures", 10), ("followupsPerProcedure", 1), ("specialists", 2),
        ("capacityPerSpecialist", 100)]
    requiredServices := [] }

/-- A state over the scenario inputs and its two modules, with the given ledger
left behind by earlier work. -/
def scenarioState (ion dv : ℚ) : State :=
  { inputs := scenarioInputs
    capacity := { ionRemaining := ion, dvRemaining := dv }
    modules := [scenarioModule "x" 100, scenarioModule "y" 100] }

/-- The procedure revenue of an arm as the specification words it: the units
of ION and of da Vinci and the residual standard procedures, each multiplied
by a price of its own, the whole scaled by the retained share. -/
def splitThreeWays (retainedShare procs ionUnits robUnits ionPrice robPrice procPrice : ℚ) : ℚ :=
  retainedShare * (ionUnits * ionPrice + robUnits * robPrice
    + (procs - ionUnits - robUnits) * procPrice)

/-- A CT module with 100 exams a year, all detected and captured under the
platform, half of them captured at baseline, 40 % converted, a tenth of the
procedures sent to da Vinci and half of them to ION. -/
def revenueModule : Module :=
  { id := "r"
    name := "r"
    kind := "ct"
    enabled := true
    defaults := Obj.ofList []
    values := Obj.ofList
      [("ctsPerYear", 100), ("detectionPct", 100), ("captureThynk", 100), ("captureBaseline", 50),
        ("conversionToProcedure", 40), ("roboticShareOfProcedures", 10),
        ("ionShareOfProcedures", 50), ("followupsPerProcedure", 1), ("specialists", 1),
        ("capacityPerSpecialist", 1000)]
    requiredServices := [] }
/-- The intervention side of a card: clinics, procedures, the two grants and the badge. -/
def CardView.interventionSide (c : CardView) : ℚ × ℚ × ℚ × ℚ × String × String :=
  (c.outputs.clinics, c.outputs.procs, c.outputs.rob, c.outputs.ion, c.badgeText, c.badgeClass)

/-- Two modules that differ at most in the entry `captureBaseline` of their values. -/
def sameButBaseline (m m' : Module) : Prop :=
  m.id = m'.id ∧ m.name = m'.name ∧ m.kind = m'.kind ∧ m.enabled = m'.enabled ∧
    m.defaults = m'.defaults ∧ m.requiredServices = m'.requiredServices ∧
    ∀ key : String, key ≠ "captureBaseline" → m.values key = m'.values key

/-- The scenario module with a baseline capture rate of `blPct` percent. -/
def baselineModule (id : String) (blPct : ℚ) : Module :=
  { scenarioModule id 100 with
    values := fun key =>
      if key = "captureBaseline" then some blPct else (scenarioModule id 100).values key }

/-- The card one call of the callback writes, with the id of its module. -/
def stepCard (inputs : Inputs) (acc : PassState) (mod : Module) : String × CardView :=
  if mod.enabled = false then (mod.id, offCard)
  else (mod.id, enabledCard inputs acc.capacity mod)
/-- The global configuration is in its documented domain: the two percentages in
[0,100], the eight prices and the two pool capacities non-negative. -/
def Inputs.inDomain (inputs : Inputs) : Prop :=
  (0 ≤ inputs.commercialPct ∧ inputs.commercialPct ≤ 100) ∧
    (0 ≤ inputs.retainedPct ∧ inputs.retainedPct ≤ 100) ∧
    (0 ≤ inputs.prices.clinic.medicare ∧ 0 ≤ inputs.prices.clinic.commercial) ∧
    (0 ≤ inputs.prices.imaging.medicare ∧ 0 ≤ inputs.prices.imaging.commercial) ∧
    (0 ≤ inputs.prices.proc.medicare ∧ 0 ≤ inputs.prices.proc.commercial) ∧
    (0 ≤ inputs.prices.rob.medicare ∧ 0 ≤ inputs.prices.rob.commercial) ∧
    0 ≤ inputs.ionCount * inputs.ionCapacity ∧ 0 ≤ inputs.dvCount * inputs.dvCapacity

/-- The coefficients of a module, as the pass reads them, are in their
documented domain: exposure non-negative, every percentage in [0,100], the
capture rate under the platform at least the baseline one, and follow-up ratio,
headcount and capacity per specialist non-negative. -/
def Module.inDomain (inputs : Inputs) (mod : Module) : Prop :=
  0 ≤ baseExams inputs mod ∧
    (0 ≤ field mod "actionablePct" ∧ field mod "actionablePct" ≤ 100) ∧
    (0 ≤ field mod "detectionPct" ∧ field mod "detectionPct" ≤ 100) ∧
    (0 ≤ nullish (mod.values "captureThynk") 70 ∧ nullish (mod.values "captureThynk") 70 ≤ 100) ∧
    (0 ≤ nullish (mod.values "captureBaseline") 30 ∧
      nullish (mod.values "captureBaseline") 30 ≤ 100) ∧
    nullish (mod.values "captureBaseline") 30 ≤ nullish (mod.values "captureThynk") 70 ∧
    (0 ≤ field mod "conversionToProcedure" ∧ field mod "conversionToProcedure" ≤ 100) ∧
    (0 ≤ field mod "ionShareOfProcedures" ∧ field mod "ionShareOfProcedures" ≤ 100) ∧
    (0 ≤ field mod "roboticShareOfProcedures" ∧ field mod "roboticShareOfProcedures" ≤ 100) ∧
    0 ≤ field mod "followupsPerProcedure" ∧
    0 ≤ field mod "specialists" ∧
    0 ≤ field mod "capacityPerSpecialist"

/-! ## Editing the modules -/

/-- The third argument of `setModuleField`: a number (or, for a numeric field, a
string that reads as that number), a string that is blank after `trim` (or
`null`), or the `checked` flag of a checkbox. -/
inductive RawValue where
  | number (v : ℚ)
  | blank
  | checked (b : Bool)

/-- The value `setModuleField` stores under a field: `null` for a blank string,
otherwise the value as a number (`+value`). -/
def RawValue.stored : RawValue → Option ℚ
  | RawValue.number v => some v
  | RawValue.blank => none
  | RawValue.checked b => some (if b then 1 else 0)

/-- The flag `!!value` that `setModuleField` stores for the field `enabled`. -/
def RawValue.truthy : RawValue → Bool
  | RawValue.number v => decide (v ≠ 0)
  | RawValue.blank => false
  | RawValue.checked b => b

/-- The write of `setModuleField` on the module it has found. -/
def writeField (field : String) (rawValue : RawValue) (mod : Module) : Module :=
  if field = "enabled" then { mod with enabled := rawValue.truthy }
  else { mod with values := Function.update mod.values field rawValue.stored }

/-- The pattern `state.modules.find(m => m.id === id)` followed by a write on the
module found: the first module with the id is rewritten, none when there is no
such module. -/
def updateFirst (id : String) (f : Module → Module) : List Module → List Module
  | [] => []
  | m :: ms => if m.id = id then f m :: ms else m :: updateFirst id f ms

/-- The function `setModuleField(id, field, rawValue)`. -/
def setModuleField (state : State) (id field : String) (rawValue : RawValue) : State :=
  { state with modules := updateFirst id (writeField field rawValue) state.modules }

/-- The function `Math.round`: the nearest integer, halves rounded up. -/
def jsRound (x : ℚ) : ℚ := (⌊x + 1 / 2⌋ : ℤ)

/-- The local `share` of `distributeCtsToModules`:
`m.values.shareOfCts ?? m.defaults.shareOfCts ?? 0`. -/
def ctShare (mod : Module) : ℚ :=
  nullish (mod.values "shareOfCts") (nullish (mod.defaults "shareOfCts") 0)

/-- The loop of `distributeCtsToModules`: every module of kind `ct` has
`ctsPerYear` set, through `setModuleField`, to its share of the annual CTs.  The
callback writes `ctsPerYear` only, and only on the first module with the id of
the current one, which is at or before the current position, so every module is
read as it was before the loop. -/
def hydrateCts (state : State) : State :=
  state.modules.foldl
    (fun s m =>
      if m.kind = "ct" then
        setModuleField s m.id "ctsPerYear"
          (RawValue.number (jsRound (state.inputs.annualCts * ctShare m)))
      else s)
    state

/-- The function `distributeCtsToModules()`: the loop, then a recalculation. -/
def distributeCtsToModules (state : State) : State :=
  (recalcAndRender (hydrateCts state)).1

/-! ## The catalogue -/

/-- A numeric object given by its entries, `none` for the value `null`. -/
def Obj.ofEntries (l : List (String × Option ℚ)) : Obj := fun key => (l.lookup key).join

/-- An entry of the static catalogue `MODULES` (guidelines and blurb left out). -/
structure ModuleDef where
  id : String
  name : String
  group : String
  enabled : Bool
  kind : String
  defaults : List (String × Option ℚ)
  requiredServices : List String

/-- The static catalogue `MODULES`. -/
def MODULES : List ModuleDef := [
  { id := "lcs"
    name := "Lung Cancer Screening (LCS)"
    group := "Pulmonary"
    enabled := true
    kind := "lcs"
    defaults :=
      [("lcsMonthlyOverride", none), ("actionablePct", some 12), ("captureThynk", some 70),
        ("captureBaseline", some 30), ("conversionToProcedure", some 35),
        ("ionShareOfProcedures", some 55), ("roboticShareOfProcedures", some 10),
        ("followupsPerProcedure", some 1.1), ("specialists", some 4),
        ("capacityPerSpecialist", some 160)]
    requiredServices := ["ip", "ctSurg"] },
  { id := "pulm"
    name := "Incidental Pulmonary Nodules"
    group := "Pulmonary"
    enabled := true
    kind := "ct"
    defaults :=
      [("shareOfCts", some 0.18), ("detectionPct", some 4.5), ("captureThynk", some 70),
        ("captureBaseline", some 30), ("conversionToProcedure", some 28),
        ("ionShareOfProcedures", some 50), ("roboticShareOfProcedures", some 15),
        ("followupsPerProcedure", some 1.2), ("specialists", some 3),
        ("capacityPerSpecialist", some 150)]
    requiredServices := ["ip", "ctSurg"] },
  { id := "renal"
    name := "Renal Mass"
    group := "Urology"
    enabled := true
    kind := "ct"
    defaults :=
      [("shareOfCts", some 0.17), ("detectionPct", some 2.4), ("captureThynk", some 70),
        ("captureBaseline", some 30), ("conversionToProcedure", some 40),
        ("ionShareOfProcedures", some 0), ("roboticShareOfProcedures", some 70),
        ("followupsPerProcedure", some 2.1), ("specialists", some 4),
        ("capacityPerSpecialist", some 135)]
    requiredServices := ["urology"] },
  { id := "adrenal"
    name := "Adrenal Incidentaloma"
    group := "Endocrine"
    enabled := true
    kind := "ct"
    defaults :=
      [("shareOfCts", some 0.08), ("detectionPct", some 1.0), ("captureThynk", some 70),
        ("captureBaseline", some 30), ("conversionToProcedure", some 16),
        ("ionShareOfProcedures", some 0), ("roboticShareOfProcedures", some 35),
        ("followupsPerProcedure", some 1.1), ("specialists", some 2),
        ("capacityPerSpecialist", some 120)]
    requiredServices := ["urology"] },
  { id := "liver"
    name := "Liver Lesion"
    group := "HPB"
    enabled := true
    kind := "ct"
    defaults :=
      [("shareOfCts", some 0.10), ("detectionPct", some 1.7), ("captureThynk", some 70),
        ("captureBaseline", some 30), ("conversionToProcedure", some 18),
        ("ionShareOfProcedures", some 0), ("roboticShareOfProcedures", some 15),
        ("followupsPerProcedure", some 1.4), ("specialists", some 3),
        ("capacityPerSpecialist", some 140)]
    requiredServices := ["giOnc"] },
  { id := "pancreas"
    name := "Pancreatic Cyst/Mass"
    group := "HPB"
    enabled := true
    kind := "ct"
    defaults :=
      [("shareOfCts", some 0.07), ("detectionPct", some 1.3), ("captureThynk", some 70),
        ("captureBaseline", some 30), ("conversionToProcedure", some 22),
        ("ionShareOfProcedures", some 0), ("roboticShareOfProcedures", some 10),
        ("followupsPerProcedure", some 1.8), ("specialists", some 3),
        ("capacityPerSpecialist", some 130)]
    requiredServices := ["giOnc"] },
  { id := "thyroid"
    name := "Thyroid Nodule (TI‑RADS)"
    group := "Endocrine"
    enabled := true
    kind := "ct"
    defaults :=
      [("shareOfCts", some 0.12), ("detectionPct", some 2.8), ("captureThynk", some 70),
        ("captureBaseline", some 30), ("conversionToProcedure", some 20),
        ("ionShareOfProcedures", some 0), ("roboticShareOfProcedures", some 20),
        ("followupsPerProcedure", some 1.9), ("specialists", some 3),
        ("capacityPerSpecialist", some 150)]
    requiredServices := ["giOnc"] },
  { id := "vascular"
    name := "Aneurysm (AAA/TAA)"
    group := "Vascular"
    enabled := true
    kind := "ct"
    defaults :=
      [("shareOfCts", some 0.06), ("detectionPct", some 1.1), ("captureThynk", some 70),
        ("captureBaseline", some 30), ("conversionToProcedure", some 10),
        ("ionShareOfProcedures", some 0), ("roboticShareOfProcedures", some 0),
        ("followupsPerProcedure", some 1.0), ("specialists", some 2),
        ("capacityPerSpecialist", some 140)]
    requiredServices := ["vascular"] },
  { id := "ovary"
    name := "Ovarian (O‑RADS)"
    group := "Gyn"
    enabled := true
    kind := "ct"
    defaults :=
      [("shareOfCts", some 0.05), ("detectionPct", some 0.8), ("captureThynk", some 70),
        ("captureBaseline", some 30), ("conversionToProcedure", some 14),
        ("ionShareOfProcedures", some 0), ("roboticShareOfProcedures", some 20),
        ("followupsPerProcedure", some 1.2), ("specialists", some 2),
        ("capacityPerSpecialist", some 130)]
    requiredServices := ["gyn"] },
  { id := "lymph"
    name := "Lymph Nodes"
    group := "General"
    enabled := true
    kind := "ct"
    defaults :=
      [("shareOfCts", some 0.14), ("detectionPct", some 2.2), ("captureThynk", some 70),
        ("captureBaseline", some 30), ("conversionToProcedure", some 12),
        ("ionShareOfProcedures", some 0), ("roboticShareOfProcedures", some 0),
        ("followupsPerProcedure", some 1.1), ("specialists", some 3),
        ("capacityPerSpecialist", some 140)]
    requiredServices := ["giOnc"] },
  { id := "prostate"
    name := "Prostate (PI‑RADS)"
    group := "Urology"
    enabled := true
    kind := "mr"
    defaults :=
      [("annualMrOverride", none), ("detectionPct", some 20), ("captureThynk", some 70),
        ("captureBaseline", some 30), ("conversionToProcedure", some 55),
        ("ionShareOfProcedures", some 0), ("roboticShareOfProcedures", some 60),
        ("followupsPerProcedure", some 1.0), ("specialists", some 3),
        ("capacityPerSpecialist", some 150)]
    requiredServices := ["urology"] },
  { id := "cac"
    name := "CAC / Valvular"
    group := "Cardio"
    enabled := true
    kind := "ct"
    defaults :=
      [("shareOfCts", some 0.10), ("detectionPct", some 5.0), ("captureThynk", some 70),
        ("captureBaseline", some 30), ("conversionToProcedure", some 6),
        ("ionShareOfProcedures", some 0), ("roboticShareOfProcedures", some 0),
        ("followupsPerProcedure", some 1.0), ("specialists", some 4),
        ("capacityPerSpecialist", some 180)]
    requiredServices := ["vascular"] },
  { id := "ila"
    name := "Interstitial Lung Abnormalities"
    group := "Pulmonary"
    enabled := true
    kind := "ct"
    defaults :=
      [("shareOfCts", some 0.10), ("detectionPct", some 2.0), ("captureThynk", some 70),
        ("captureBaseline", some 30), ("conversionToProcedure", some 5),
        ("ionShareOfProcedures", some 10), ("roboticShareOfProcedures", some 0),
        ("followupsPerProcedure", some 1.0), ("specialists", some 3),
        ("capacityPerSpecialist", some 150)]
    requiredServices := ["ip"] },
  { id := "breast"
    name := "Incidental Breast (BI‑RADS)"
    group := "Breast"
    enabled := true
    kind := "ct"
    defaults :=
      [("shareOfCts", some 0.06), ("detectionPct", some 0.7), ("captureThynk", some 70),
        ("captureBaseline", some 30), ("conversionToProcedure", some 18),
        ("ionShareOfProcedures", some 0), ("roboticShareOfProcedures", some 0),
        ("followupsPerProcedure", some 1.0), ("specialists", some 3),
        ("capacityPerSpecialist", some 140)]
    requiredServices := ["giOnc"] },
  { id := "hernia"
    name := "Hernia (All Types)"
    group := "General Surgery"
    enabled := true
    kind := "ct"
    defaults :=
      [("shareOfCts", some 0.10), ("detectionPct", some 3.0), ("captureThynk", some 70),
        ("captureBaseline", some 30), ("conversionToProcedure", some 60),
        ("ionShareOfProcedures", some 0), ("roboticShareOfProcedures", some 75),
        ("followupsPerProcedure", some 1.3), ("specialists", some 4),
        ("capacityPerSpecialist", some 150)]
    requiredServices := ["giOnc"] }]

/-- The element of `state.modules` that `init` builds from a catalogue entry:
`{...m, values: {...m.defaults}}`. -/
def ModuleDef.toModule (d : ModuleDef) : Module :=
  { id := d.id
    name := d.name
    kind := d.kind
    enabled := d.enabled
    defaults := Obj.ofEntries d.defaults
    values := Obj.ofEntries d.defaults
    requiredServices := d.requiredServices }

/-- The list `state.modules` as `init` builds it. -/
def initModules : List Module := MODULES.map ModuleDef.toModule

/-- The keys of the initial `state.inputs.services`. -/
def serviceKeys : List String :=
  ["radOnc", "chemo", "vascular", "ip", "gyn", "ctSurg", "urology", "giOnc"]

/-- The default of a field of a catalogue entry, when the entry has the key
with a number. -/
def ModuleDef.default? (d : ModuleDef) (key : String) : Option ℚ := (d.defaults.lookup key).join

/-- The catalogue entry defines the key with a number in `[lo, hi]`. -/
def ModuleDef.defaultIn (d : ModuleDef) (key : String) (lo hi : ℚ) : Prop :=
  match d.default? key with
  | some v => lo ≤ v ∧ v ≤ hi
  | none => False

/-- The catalogue entry defines the key with a number that is at least `lo`. -/
def ModuleDef.defaultAtLeast (d : ModuleDef) (key : String) (lo : ℚ) : Prop :=
  match d.default? key with
  | some v => lo ≤ v
  | none => False

/-- The catalogue entry defines both device shares, and they add up to at most 100. -/
def ModuleDef.sharesFit (d : ModuleDef) : Prop :=
  match d.default? "ionShareOfProcedures", d.default? "roboticShareOfProcedures" with
  | some a, some b => a + b ≤ 100
  | _, _ => False

/-- A module as the loop of `distributeCtsToModules` leaves it: for kind `ct`,
`ctsPerYear` is the rounded share of `annualCts`. -/
def withCtsPerYear (annualCts : ℚ) (mod : Module) : Module :=
  if mod.kind = "ct" then
    writeField "ctsPerYear" (RawValue.number (jsRound (annualCts * ctShare mod))) mod
  else mod

/-- The first catalogue module (kind `lcs`) as `init` builds it, with a monthly
override of 100 exams typed in. -/
def lcsOverrideModule : Module :=
  { id := "lcs"
    name := "Lung Cancer Screening (LCS)"
    kind := "lcs"
    enabled := true
    defaults := Obj.ofEntries
      [("lcsMonthlyOverride", none), ("actionablePct", some 12), ("captureThynk", some 70),
        ("captureBaseline", some 30), ("conversionToProcedure", some 35),
        ("ionShareOfProcedures", some 55), ("roboticShareOfProcedures", some 10),
        ("followupsPerProcedure", some 1.1), ("specialists", some 4),
        ("capacityPerSpecialist", some 160)]
    values := Obj.ofEntries
      [("lcsMonthlyOverride", some 100), ("actionablePct", some 12), ("captureThynk", some 70),
        ("captureBaseline", some 30), ("conversionToProcedure", some 35),
        ("ionShareOfProcedures", some 55), ("roboticShareOfProcedures", some 10),
        ("followupsPerProcedure", some 1.1), ("specialists", some 4),
        ("capacityPerSpecialist", some 160)]
    requiredServices := ["ip", "ctSurg"] }

/-- The defaults of the second catalogue module (`pulm`, kind `ct`). -/
def pulmDefaults : List (String × Option ℚ) :=
  [("shareOfCts", some 0.18), ("detectionPct", some 4.5), ("captureThynk", some 70),
    ("captureBaseline", some 30), ("conversionToProcedure", some 28),
    ("ionShareOfProcedures", some 50), ("roboticShareOfProcedures", some 15),
    ("followupsPerProcedure", some 1.2), ("specialists", some 3),
    ("capacityPerSpecialist", some 150)]

/-- The second catalogue module as `init` builds it, with the field `ctsPerYear`
cleared: its values hold the key with `null`. -/
def blankCtModule : Module :=
  { id := "pulm"
    name := "Incidental Pulmonary Nodules"
    kind := "ct"
    enabled := true
    defaults := Obj.ofEntries pulmDefaults
    values := Obj.ofEntries (pulmDefaults ++ [("ctsPerYear", none)])
    requiredServices := ["ip", "ctSurg"] }

/-! ## The form of global inputs -/

/-- The numbers `+$("#id").value` read from the seventeen inputs of the form,
`none` when the text does not read as a number (`NaN`). -/
structure Form where
  annualCts : Option ℚ
  monthlyLcs : Option ℚ
  annualProstateMrs : Option ℚ
  commercialPct : Option ℚ
  retainedPct : Option ℚ
  ionCount : Option ℚ
  ionCapacity : Option ℚ
  dvCount : Option ℚ
  dvCapacity : Option ℚ
  priceClinicMedicare : Option ℚ
  priceClinicCommercial : Option ℚ
  priceImagingMedicare : Option ℚ
  priceImagingCommercial : Option ℚ
  priceProcMedicare : Option ℚ
  priceProcCommercial : Option ℚ
  priceRobMedicare : Option ℚ
  priceRobCommercial : Option ℚ

/-- The expression `x || 0` on a number that may be `NaN`. -/
def orZero (x : Option ℚ) : ℚ :=
  match x with
  | some v => v
  | none => 0

/-- The function `clamp(n, min, max)` on a number that may be `NaN`: 0 for
`NaN`, otherwise `Math.max(min, Math.min(max, num))`. -/
def clampNumber (n : Option ℚ) (lo hi : ℚ) : ℚ :=
  match n with
  | some x => clamp x lo hi
  | none => 0

/-- The function `setFromInputs()`: the inputs it writes from the form (the
service map is not touched). -/
def setFromInputs (form : Form) (state : State) : State :=
  { state with
    inputs :=
      { annualCts := orZero form.annualCts
        monthlyLcs := orZero form.monthlyLcs
        annualProstateMrs := orZero form.annualProstateMrs
        commercialPct := clampNumber form.commercialPct 0 100
        retainedPct := clampNumber form.retainedPct 0 100
        ionCount := orZero form.ionCount
        ionCapacity := orZero form.ionCapacity
        dvCount := orZero form.dvCount
        dvCapacity := orZero form.dvCapacity
        prices :=
          { clinic :=
              { medicare := orZero form.priceClinicMedicare
                commercial := orZero form.priceClinicCommercial }
            imaging :=
              { medicare := orZero form.priceImagingMedicare
                commercial := orZero form.priceImagingCommercial }
            proc :=
              { medicare := orZero form.priceProcMedicare
                commercial := orZero form.priceProcCommercial }
            rob :=
              { medicare := orZero form.priceRobMedicare
                commercial := orZero form.priceRobCommercial } }
        services := state.inputs.services } }

/-- The form as `resetAll` fills it. -/
def defaultForm : Form :=
  { annualCts := some 100000
    monthlyLcs := some 250
    annualProstateMrs := some 500
    commercialPct := some 10
    retainedPct := some 75
    ionCount := some 2
    ionCapacity := some 250
    dvCount := some 3
    dvCapacity := some 275
    priceClinicMedicare := some 150
    priceClinicCommercial := some 280
    priceImagingMedicare := some 250
    priceImagingCommercial := some 520
    priceProcMedicare := some 5000
    priceProcCommercial := some 11000
    priceRobMedicare := some 6500
    priceRobCommercial := some 14000 }

/-- The function `resetAll()`: the form is filled with the defaults, every
module is enabled with its values reset to its defaults, then `setFromInputs`,
`distributeCtsToModules` and `recalcAndRender` run.  The state it leaves and
the form. -/
def resetAll (state : State) : State × Form :=
  ((recalcAndRender
      (distributeCtsToModules
        (setFromInputs defaultForm
          { state with
            modules := state.modules.map fun m =>
              { m with enabled := true, values := m.defaults } }))).1,
    defaultForm)

/-- The initial form with a clinic price of -5 typed in for medicare. -/
def negativePriceForm : Form :=
  { defaultForm with priceClinicMedicare := some (-5) }

/-! ## Saving and loading a scenario -/

/-- How a body of statements ends: it returns, or a statement throws; in both
cases with the state reached so far. -/
inductive Outcome (α : Type) where
  | returned (a : α)
  | threw (a : α)

/-- The object `json.inputs` of a payload: for each key of `state.inputs`, the
value when the object has the key. -/
structure InputsPatch where
  annualCts : Option ℚ
  monthlyLcs : Option ℚ
  annualProstateMrs : Option ℚ
  commercialPct : Option ℚ
  retainedPct : Option ℚ
  ionCount : Option ℚ
  ionCapacity : Option ℚ
  dvCount : Option ℚ
  dvCapacity : Option ℚ
  prices : Option Prices
  services : Option (String → Bool)

/-- The call `Object.assign(state.inputs, patch)`: every key of the patch
overwrites the input of that name. -/
def assignInputs (patch : InputsPatch) (inputs : Inputs) : Inputs :=
  { annualCts := nullish patch.annualCts inputs.annualCts
    monthlyLcs := nullish patch.monthlyLcs inputs.monthlyLcs
    annualProstateMrs := nullish patch.annualProstateMrs inputs.annualProstateMrs
    commercialPct := nullish patch.commercialPct inputs.commercialPct
    retainedPct := nullish patch.retainedPct inputs.retainedPct
    ionCount := nullish patch.ionCount inputs.ionCount
    ionCapacity := nullish patch.ionCapacity inputs.ionCapacity
    dvCount := nullish patch.dvCount inputs.dvCount
    dvCapacity := nullish patch.dvCapacity inputs.dvCapacity
    prices :=
      match patch.prices with
      | some p => p
      | none => inputs.prices
    services :=
      match patch.services with
      | some s => s
      | none => inputs.services }

/-- A numeric object of a payload with its keys: `none` for a key the object
does not have, `some v` for a key with the value `v` (`some none` for `null`). -/
abbrev SavedObj := String → Option (Option ℚ)

/-- An entry of `json.modules`: `id`, the truthiness of `enabled`, and `values`
(`none` when falsy, read as `{}`). -/
structure SavedModule where
  id : String
  enabled : Bool
  values : Option SavedObj

/-- The property `json.modules` of a payload. -/
inductive SavedModules where
  /-- The value `null` or `undefined`: `?.` skips the loop. -/
  | missing
  /-- Another value without `forEach`, such as a number: the call throws. -/
  | notAList
  /-- An array; the entry `none` is `null` or `undefined`, and reading its `id` throws. -/
  | list (entries : List (Option SavedModule))

/-- What `JSON.parse(decodeURIComponent(escape(atob(decodeURIComponent(s)))))` makes of
the text after `#s=`. -/
inductive Parsed where
  /-- Decoding or parsing throws. -/
  | failed
  /-- The text parses to `null`: reading `json.inputs` throws. -/
  | null
  /-- Another value, with its property `inputs` (`none` when falsy) and its
  property `modules`. -/
  | value (inputs : Option InputsPatch) (modules : SavedModules)

/-- The hash of the location: without `#s=` (or empty), or with a scenario text. -/
inductive Hash where
  | noScenario
  | scenario (parsed : Parsed)

/-- The spread `{...mod.defaults, ...(saved.values || {})}`. -/
def mergeValues (defaults : Obj) (saved : Option SavedObj) : Obj := fun key =>
  match saved with
  | none => defaults key
  | some obj =>
    match obj key with
    | some v => v
    | none => defaults key

/-- The two writes of the callback of `json.modules?.forEach` on the module found. -/
def loadModule (saved : SavedModule) (mod : Module) : Module :=
  { mod with enabled := saved.enabled, values := mergeValues mod.defaults saved.values }

/-- The loop `json.modules.forEach(saved => ...)` on an array: the modules it
leaves, as returned or as reached when reading `saved.id` throws. -/
def loadModules : List (Option SavedModule) → List Module → Outcome (List Module)
  | [], modules => Outcome.returned modules
  | none :: _, modules => Outcome.threw modules
  | some saved :: rest, modules =>
    loadModules rest (updateFirst saved.id (loadModule saved) modules)

/-- The state change of `reflectModulesToDom()`: a module of kind `ct` whose
`ctsPerYear` is nullish has it prefilled, through `setModuleField`, with its
share of the annual CTs.  (Every module is read as it was before the loop, as
in `hydrateCts`; every module has its card.) -/
def reflectModulesToDom (state : State) : State :=
  state.modules.foldl
    (fun s m =>
      if m.kind = "ct" ∧ m.values "ctsPerYear" = none then
        setModuleField s m.id "ctsPerYear"
          (RawValue.number (jsRound (state.inputs.annualCts * ctShare m)))
      else s)
    state

/-- The statements of the `try` block of `loadScenarioFromUrl`. -/
def loadBody (parsed : Parsed) (state : State) : Outcome State :=
  match parsed with
  | Parsed.failed => Outcome.threw state
  | Parsed.null => Outcome.threw state
  | Parsed.value inputs modules =>
    match modules with
    | SavedModules.missing =>
      Outcome.returned (reflectModulesToDom
        { state with
          inputs :=
            match inputs with
            | some patch => assignInputs patch state.inputs
            | none => state.inputs })
    | SavedModules.notAList =>
      Outcome.threw
        { state with
          inputs :=
            match inputs with
            | some patch => assignInputs patch state.inputs
            | none => state.inputs }
    | SavedModules.list entries =>
      match loadModules entries state.modules with
      | Outcome.returned modules =>
        Outcome.returned (reflectModulesToDom
          { state with
            inputs :=
              match inputs with
              | some patch => assignInputs patch state.inputs
              | none => state.inputs
            modules := modules })
      | Outcome.threw modules =>
        Outcome.threw
          { state with
            inputs :=
              match inputs with
              | some patch => assignInputs patch state.inputs
              | none => state.inputs
            modules := modules }

/-- The function `loadScenarioFromUrl()`: the state it leaves and whether it
logged the warning `Failed to load scenario`. -/
def loadScenarioFromUrl (hash : Hash) (state : State) : Outcome (State × Bool) :=
  match hash with
  | Hash.noScenario => Outcome.returned (state, false)
  | Hash.scenario parsed =>
    match loadBody parsed state with
    | Outcome.returned s => Outcome.returned (s, false)
    | Outcome.threw s => Outcome.returned (s, true)

/-- The whole of `state.inputs` as a payload object. -/
def savedInputs (inputs : Inputs) : InputsPatch :=
  { annualCts := some inputs.annualCts
    monthlyLcs := some inputs.monthlyLcs
    annualProstateMrs := some inputs.annualProstateMrs
    commercialPct := some inputs.commercialPct
    retainedPct := some inputs.retainedPct
    ionCount := some inputs.ionCount
    ionCapacity := some inputs.ionCapacity
    dvCount := some inputs.dvCount
    dvCapacity := some inputs.dvCapacity
    prices := some inputs.prices
    services := some inputs.services }

/-- The entry `{id: m.id, enabled: m.enabled, values: m.values}` of the payload;
`ownKeys` tells which keys the object `m.values` has. -/
def savedModule (ownKeys : String → Bool) (mod : Module) : SavedModule :=
  { id := mod.id
    enabled := mod.enabled
    values := some fun key => if ownKeys key then some (mod.values key) else none }

/-- The payload of `saveScenarioUrl()` as the decoding of its hash reads it
back, the encoding being lossless; `ownKeys m` tells which keys the object
`m.values` has. -/
def saveScenarioUrl (ownKeys : Module → String → Bool) (state : State) : Hash :=
  Hash.scenario
    (Parsed.value (some (savedInputs state.inputs))
      (SavedModules.list (state.modules.map fun m => some (savedModule (ownKeys m) m))))

/-- A module as `reflectModulesToDom` leaves it: for kind `ct` with a nullish
`ctsPerYear`, the rounded share of `annualCts` is filled in. -/
def prefilled (annualCts : ℚ) (mod : Module) : Module :=
  if mod.kind = "ct" ∧ mod.values "ctsPerYear" = none then
    writeField "ctsPerYear" (RawValue.number (jsRound (annualCts * ctShare mod))) mod
  else mod

/-- Two modules built from the same catalogue entry: they agree on everything
but `enabled` and `values`. -/
def sameEntry (m m' : Module) : Prop :=
  m.id = m'.id ∧ m.name = m'.name ∧ m.kind = m'.kind ∧ m.defaults = m'.defaults ∧
    m.requiredServices = m'.requiredServices

/-- A payload whose `inputs` set `commercialPct` to 50 and whose `modules` is
the number 5. -/
def malformedModulesHash : Hash :=
  Hash.scenario
    (Parsed.value
      (some
        { annualCts := none
          monthlyLcs := none
          annualProstateMrs := none
          commercialPct := some 50
          retainedPct := none
          ionCount := none
          ionCapacity := none
          dvCount := none
          dvCapacity := none
          prices := none
          services := none })
      SavedModules.notAList)

/-- The state with the initial inputs and the one module `blankCtModule`. -/
def blankCtState : State :=
  { inputs := defaultInputs
    capacity := { ionRemaining := 0, dvRemaining := 0 }
    modules := [blankCtModule] }

/-- The keys of `blankCtModule.values`. -/
def blankCtKeys : Module → String → Bool := fun _ key =>
  ((pulmDefaults ++ [("ctsPerYear", none)]).map Prod.fst).contains key

/-! ## The pass on the page -/

/-- What the document shows: for every module id the content of the card with
that id (`none` when the document has no such card), and the rows and totals of
the summary table. -/
structure Page where
  cards : String → Option CardView
  summaryRows : List SummaryRow
  totals : Totals

/-- One call of the callback of `state.modules.forEach` on the page: the lookup
of the card, on which `card.querySelector` throws when it has found nothing,
then the step, whose card is written to the page. -/
def moduleStepOnPage (inputs : Inputs) (acc : PassState) (page : Page) (mod : Module) :
    Outcome (PassState × Page) :=
  match page.cards mod.id with
  | none => Outcome.threw (acc, page)
  | some _ =>
    Outcome.returned
      (moduleStep inputs acc mod,
        { page with
          cards := Function.update page.cards mod.id (some (stepCard inputs acc mod).2) })

/-- The loop `state.modules.forEach(...)` on the page, up to the first throw. -/
def forEachOnPage (inputs : Inputs) : List Module → PassState → Page → Outcome (PassState × Page)
  | [], acc, page => Outcome.returned (acc, page)
  | m :: ms, acc, page =>
    match moduleStepOnPage inputs acc page m with
    | Outcome.returned r => forEachOnPage inputs ms r.1 r.2
    | Outcome.threw r => Outcome.threw r

/-- The function `recalcAndRender()` on the page: the ledger is reset and the
loop runs; when it returns, the summary table is rendered, and when it throws,
the `catch` block alerts.  The state and the page it leaves, and whether it
alerted.  (The summary table and the charts are taken to render without error.) -/
def recalcAndRenderOnPage (state : State) (page : Page) : State × Page × Bool :=
  match forEachOnPage state.inputs state.modules (passStart state.inputs) page with
  | Outcome.returned r =>
    ({ state with capacity := r.1.capacity },
      { r.2 with summaryRows := r.1.summaryRows, totals := r.1.totals }, false)
  | Outcome.threw r => ({ state with capacity := r.1.capacity }, r.2, true)

/-- The page after the listed cards have been written, in order. -/
def writeCards (page : Page) (written : List (String × CardView)) : Page :=
  written.foldl
    (fun p c => { p with cards := Function.update p.cards c.1 (some c.2) }) page

/-- A card as `renderModuleCard` builds it: badge `OK`, outputs 0. -/
def freshCard : CardView :=
  { badgeText := "OK"
    badgeClass := "badge badge--ok"
    outputs := { clinics := 0, procs := 0, rob := 0, ion := 0, revenue := 0, leakage := 0 } }

/-- A document with a fresh card for the module `x` only and an empty summary. -/
def pageWithCardX : Page :=
  { cards := fun id => if id = "x" then some freshCard else none
    summaryRows := []
    totals := { clinics := 0, fups := 0, procs := 0, rob := 0, ion := 0, revenue := 0 } }

/-! ## Lemmas on one draw -/

theorem granted_eq_min (inputs : Inputs) (cap : Capacity) (mod : Module) (pool : Pool) :
    granted inputs cap mod pool = min (requested inputs mod pool) (cap.remaining pool) := by
  unfold granted
  split_ifs with h
  · exact (min_eq_right (le_of_lt h)).symm
  · exact (min_eq_left (not_lt.mp h)).symm

theorem draw_remaining (inputs : Inputs) (cap : Capacity) (mod : Module) (pool : Pool) :
    (draw inputs cap mod).remaining pool = cap.remaining pool - granted inputs cap mod pool := by
  cases pool <;> rfl

theorem draw_remaining_nonneg (inputs : Inputs) (cap : Capacity) (mod : Module) (pool : Pool) :
    0 ≤ (draw inputs cap mod).remaining pool := by
  rw [draw_remaining, granted_eq_min]
  exact sub_nonneg.mpr (min_le_right _ _)

theorem granted_nonneg_iff (inputs : Inputs) (cap : Capacity) (mod : Module) (pool : Pool) :
    0 ≤ granted inputs cap mod pool ↔ 0 ≤ requested inputs mod pool ∧ 0 ≤ cap.remaining pool := by
  rw [granted_eq_min]
  exact le_min_iff

theorem granted_le_remaining (inputs : Inputs) (cap : Capacity) (mod : Module) (pool : Pool) :
    granted inputs cap mod pool ≤ cap.remaining pool := by
  rw [granted_eq_min]
  exact min_le_right _ _

theorem moduleStep_enabled (inputs : Inputs) (acc : PassState) (mod : Module)
    (h : mod.enabled = true) :
    moduleStep inputs acc mod =
      { capacity := draw inputs acc.capacity mod
        cards := acc.cards ++ [(mod.id, enabledCard inputs acc.capacity mod)]
        summaryRows := acc.summaryRows ++ [enabledRow inputs acc.capacity mod]
        totals := addTotals inputs acc.capacity mod acc.totals } := by
  simp [moduleStep, h]

theorem moduleStep_disabled (inputs : Inputs) (acc : PassState) (mod : Module)
    (h : mod.enabled = false) :
    moduleStep inputs acc mod =
      { acc with
        cards := acc.cards ++ [(mod.id, offCard)]
        summaryRows := acc.summaryRows ++ [offRow mod] } := by
  simp [moduleStep, h]

/-- One step never raises a counter when the requests of an enabled module and
the counters before the step are non-negative; the counters stay non-negative. -/
theorem moduleStep_capacity (inputs : Inputs) (acc : PassState) (mod : Module)
    (hacc : ∀ pool, 0 ≤ acc.capacity.remaining pool)
    (hreq : mod.enabled = true → ∀ pool, 0 ≤ requested inputs mod pool) (pool : Pool) :
    0 ≤ (moduleStep inputs acc mod).capacity.remaining pool ∧
      (moduleStep inputs acc mod).capacity.remaining pool ≤ acc.capacity.remaining pool := by
  cases hen : mod.enabled with
  | false =>
    rw [moduleStep_disabled inputs acc mod hen]
    exact ⟨hacc pool, le_refl _⟩
  | true =>
    rw [moduleStep_enabled inputs acc mod hen]
    refine ⟨draw_remaining_nonneg inputs acc.capacity mod pool, ?_⟩
    show (draw inputs acc.capacity mod).remaining pool ≤ acc.capacity.remaining pool
    rw [draw_remaining]
    have hg := (granted_nonneg_iff inputs acc.capacity mod pool).mpr ⟨hreq hen pool, hacc pool⟩
    linarith

theorem scanl_head {α β : Type} (f : α → β → α) (a : α) (l : List β) :
    (l.scanl f a).head? = some a := by
  cases l <;> rfl

/-- From any loop state with non-negative counters, the ledger never increases
along the remaining modules and ends between `0` and its value at that state. -/
theorem trace_from (inputs : Inputs) (modules : List Module) :
    ∀ acc : PassState, (∀ pool, 0 ≤ acc.capacity.remaining pool) →
      (∀ mod ∈ modules, mod.enabled = true → ∀ pool, 0 ≤ requested inputs mod pool) →
      List.Chain' (fun a b : Capacity => ∀ pool, b.remaining pool ≤ a.remaining pool)
          ((modules.scanl (moduleStep inputs) acc).map (fun s => s.capacity)) ∧
        ∀ pool, 0 ≤ (modules.foldl (moduleStep inputs) acc).capacity.remaining pool ∧
          (modules.foldl (moduleStep inputs) acc).capacity.remaining pool
            ≤ acc.capacity.remaining pool := by
  induction modules with
  | nil =>
    intro acc hacc _
    exact ⟨by simp, fun pool => ⟨hacc pool, le_refl _⟩⟩
  | cons m ms ih =>
    intro acc hacc hreq
    have hstep := moduleStep_capacity inputs acc m hacc (hreq m (List.mem_cons_self m ms))
    have hrec := ih (moduleStep inputs acc m) (fun pool => (hstep pool).1)
      (fun mod hmod => hreq mod (List.mem_cons_of_mem m hmod))
    refine ⟨?_, fun pool => ⟨(hrec.2 pool).1, le_trans (hrec.2 pool).2 (hstep pool).2⟩⟩
    rw [List.scanl_cons, List.singleton_append, List.map_cons, List.chain'_cons']
    refine ⟨?_, hrec.1⟩
    intro b hb pool
    rw [List.head?_map, scanl_head] at hb
    simp only [Option.map_some', Option.mem_def, Option.some.injEq] at hb
    rw [← hb]
    exact (hstep pool).2

/-! ## C1: the ledger during a pass -/

/-- C1, as stated, fails: with a da Vinci share of -100 % the single module of
the pass requests -80 units and the da Vinci counter rises from its initial
100 to 180, above `dvCount * dvCapacity`. -/
theorem ledger_bound_fails_for_negative_share :
    scenarioInputs.dvCount * scenarioInputs.dvCapacity = 100 ∧
      (runPass scenarioInputs [scenarioModule "x" (-100)]).capacity.dvRemaining = 180 ∧
      ¬ ((runPass scenarioInputs [scenarioModule "x" (-100)]).capacity.dvRemaining
          ≤ scenarioInputs.dvCount * scenarioInputs.dvCapacity) := by
  have h : (runPass scenarioInputs [scenarioModule "x" (-100)]).capacity.dvRemaining = 180 := by
    simp +decide [runPass, passStart, resetCapacity, moduleStep, draw, granted, requested,
      procThCapped, procThRaw, specialistCap, share, robShare, field, clinicsTh, actionable,
      baseExams, detPct, capTh, conv, svcOkFactor, serviceCoverageFactor, nullish,
      scenarioModule, scenarioInputs, defaultInputs, Obj.ofList, List.lookup,
      Capacity.remaining]
    norm_num
  refine ⟨by norm_num [scenarioInputs, defaultInputs], h, ?_⟩
  rw [h]
  norm_num [scenarioInputs, defaultInputs]

/-- C1 (amended): when both pool capacities `count * perUnitCapacity` are
non-negative and every enabled module requests a non-negative amount from each
pool, neither ledger counter increases from one module's step to the next
during a pass, and after the pass each counter lies between `0` and
`ionCount * ionCapacity` resp. `dvCount * dvCapacity`. -/
theorem ledger_monotone_and_bounded (inputs : Inputs) (modules : List Module)
    (hion : 0 ≤ inputs.ionCount * inputs.ionCapacity)
    (hdv : 0 ≤ inputs.dvCount * inputs.dvCapacity)
    (hreq : ∀ mod ∈ modules, mod.enabled = true → ∀ pool, 0 ≤ requested inputs mod pool) :
    List.Chain' (fun before after : Capacity =>
        after.ionRemaining ≤ before.ionRemaining ∧ after.dvRemaining ≤ before.dvRemaining)
        (ledgerTrace inputs modules) ∧
      0 ≤ (runPass inputs modules).capacity.ionRemaining ∧
      (runPass inputs modules).capacity.ionRemaining ≤ inputs.ionCount * inputs.ionCapacity ∧
      0 ≤ (runPass inputs modules).capacity.dvRemaining ∧
      (runPass inputs modules).capacity.dvRemaining ≤ inputs.dvCount * inputs.dvCapacity := by
  have hstart : ∀ pool, 0 ≤ (passStart inputs).capacity.remaining pool := by
    intro pool
    cases pool
    · exact hion
    · exact hdv
  have h := trace_from inputs modules (passStart inputs) hstart hreq
  refine ⟨?_, (h.2 Pool.ion).1, (h.2 Pool.ion).2, (h.2 Pool.dv).1, (h.2 Pool.dv).2⟩
  refine List.Chain'.imp ?_ h.1
  intro a b hab
  exact ⟨hab Pool.ion, hab Pool.dv⟩

/-- C1 (amended) at the scenario of two modules requesting 80 da Vinci units each. -/
theorem ledger_monotone_and_bounded_witness :
    List.Chain' (fun before after : Capacity =>
        after.ionRemaining ≤ before.ionRemaining ∧ after.dvRemaining ≤ before.dvRemaining)
        (ledgerTrace scenarioInputs [scenarioModule "x" 100, scenarioModule "y" 100]) ∧
      0 ≤ (runPass scenarioInputs
        [scenarioModule "x" 100, scenarioModule "y" 100]).capacity.ionRemaining ∧
      (runPass scenarioInputs [scenarioModule "x" 100, scenarioModule "y" 100]).capacity.ionRemaining
        ≤ scenarioInputs.ionCount * scenarioInputs.ionCapacity ∧
      0 ≤ (runPass scenarioInputs
        [scenarioModule "x" 100, scenarioModule "y" 100]).capacity.dvRemaining ∧
      (runPass scenarioInputs [scenarioModule "x" 100, scenarioModule "y" 100]).capacity.dvRemaining
        ≤ scenarioInputs.dvCount * scenarioInputs.dvCapacity :=
  ledger_monotone_and_bounded scenarioInputs [scenarioModule "x" 100, scenarioModule "y" 100]
    (by norm_num [scenarioInputs, defaultInputs])
    (by norm_num [scenarioInputs, defaultInputs])
    (by
      intro mod hmod _ pool
      simp only [List.mem_cons, List.mem_singleton, List.not_mem_nil, or_false] at hmod
      rcases hmod with rfl | rfl <;> cases pool <;>
        · simp +decide [requested, procThCapped, procThRaw, specialistCap, share, robShare,
            ionShare, field, clinicsTh, actionable, baseExams, detPct, capTh, conv, svcOkFactor,
            serviceCoverageFactor, nullish, scenarioModule, Obj.ofList, List.lookup])

/-! ## C2: one draw -/

theorem enabledCard_capped (inputs : Inputs) (cap : Capacity) (mod : Module) (pool : Pool) :
    (enabledCard inputs cap mod).capped pool = warn inputs cap mod pool := by
  cases pool <;> cases hd : warn inputs cap mod Pool.dv <;>
    cases hi : warn inputs cap mod Pool.ion <;>
    simp +decide [enabledCard, CardView.capped, badgeText, hd, hi]

theorem warn_iff (inputs : Inputs) (cap : Capacity) (mod : Module) (pool : Pool) :
    warn inputs cap mod pool = true ↔ requested inputs mod pool > cap.remaining pool := by
  simp [warn]

/-- C2, as stated, fails: with a da Vinci count of -1 the pool starts at -100,
and a module requesting 80 units is granted -100, a negative amount. -/
theorem grant_negative_for_negative_count :
    requested negativeCountInputs (scenarioModule "x" 100) Pool.dv = 80 ∧
      grantedList (runPass negativeCountInputs [scenarioModule "x" 100]) Pool.dv = [-100] ∧
      ¬ (∀ g ∈ grantedList (runPass negativeCountInputs [scenarioModule "x" 100]) Pool.dv,
        (0 : ℚ) ≤ g) := by
  have hreq : requested negativeCountInputs (scenarioModule "x" 100) Pool.dv = 80 := by
    simp +decide [requested, procThCapped, procThRaw, specialistCap, share, robShare, field,
      clinicsTh, actionable, baseExams, detPct, capTh, conv, svcOkFactor,
      serviceCoverageFactor, nullish, scenarioModule, Obj.ofList, List.lookup]
  have h : grantedList (runPass negativeCountInputs [scenarioModule "x" 100]) Pool.dv
      = [-100] := by
    have hen : (scenarioModule "x" 100).enabled = true := rfl
    simp only [runPass, List.foldl, moduleStep_enabled _ _ _ hen, grantedList, passStart,
      List.nil_append, List.map_cons, List.map_nil, enabledCard, Outputs.granted, granted, hreq]
    norm_num [resetCapacity, Capacity.remaining, negativeCountInputs, defaultInputs]
  refine ⟨hreq, h, ?_⟩
  rw [h]
  norm_num

/-- C2 (amended): for an enabled module, from any loop state, the step writes
one card whose badge is selected by the two flags, and for each pool the
request is `procThCapped * share`, the grant is `min(requested, remainingBefore)`,
the counter after is `remainingBefore - granted`, the badge reports the pool as
capped exactly when `requested > remainingBefore`, the counter after is never
negative, and the grant is non-negative exactly when both the request and the
counter before are non-negative. -/
theorem draw_grants_min (inputs : Inputs) (acc : PassState) (mod : Module)
    (henabled : mod.enabled = true) :
    ∃ card : CardView,
      (moduleStep inputs acc mod).cards = acc.cards ++ [(mod.id, card)] ∧
      card.badgeText =
        badgeText (decide (requested inputs mod Pool.dv > acc.capacity.dvRemaining))
          (decide (requested inputs mod Pool.ion > acc.capacity.ionRemaining)) ∧
      ∀ pool : Pool,
        requested inputs mod pool = procThCapped inputs mod * share mod pool ∧
        card.outputs.granted pool
          = min (requested inputs mod pool) (acc.capacity.remaining pool) ∧
        (moduleStep inputs acc mod).capacity.remaining pool
          = acc.capacity.remaining pool - card.outputs.granted pool ∧
        (card.capped pool = true ↔ requested inputs mod pool > acc.capacity.remaining pool) ∧
        0 ≤ (moduleStep inputs acc mod).capacity.remaining pool ∧
        (0 ≤ card.outputs.granted pool ↔
          0 ≤ requested inputs mod pool ∧ 0 ≤ acc.capacity.remaining pool) := by
  refine ⟨enabledCard inputs acc.capacity mod, ?_, rfl, ?_⟩
  · rw [moduleStep_enabled inputs acc mod henabled]
  · intro pool
    have hg : (enabledCard inputs acc.capacity mod).outputs.granted pool
        = granted inputs acc.capacity mod pool := by
      cases pool <;> rfl
    rw [moduleStep_enabled inputs acc mod henabled, hg, enabledCard_capped, warn_iff]
    exact ⟨rfl, granted_eq_min inputs acc.capacity mod pool,
      draw_remaining inputs acc.capacity mod pool, Iff.rfl,
      draw_remaining_nonneg inputs acc.capacity mod pool,
      granted_nonneg_iff inputs acc.capacity mod pool⟩

/-- C2 (amended) at the first module of the scenario pass. -/
theorem draw_grants_min_witness :
    ∃ card : CardView,
      (moduleStep scenarioInputs (passStart scenarioInputs) (scenarioModule "x" 100)).cards
        = (passStart scenarioInputs).cards ++ [((scenarioModule "x" 100).id, card)] ∧
      card.badgeText =
        badgeText
          (decide (requested scenarioInputs (scenarioModule "x" 100) Pool.dv
            > (passStart scenarioInputs).capacity.dvRemaining))
          (decide (requested scenarioInputs (scenarioModule "x" 100) Pool.ion
            > (passStart scenarioInputs).capacity.ionRemaining)) ∧
      ∀ pool : Pool,
        requested scenarioInputs (scenarioModule "x" 100) pool
          = procThCapped scenarioInputs (scenarioModule "x" 100)
            * share (scenarioModule "x" 100) pool ∧
        card.outputs.granted pool
          = min (requested scenarioInputs (scenarioModule "x" 100) pool)
            ((passStart scenarioInputs).capacity.remaining pool) ∧
        (moduleStep scenarioInputs (passStart scenarioInputs)
            (scenarioModule "x" 100)).capacity.remaining pool
          = (passStart scenarioInputs).capacity.remaining pool - card.outputs.granted pool ∧
        (card.capped pool = true ↔
          requested scenarioInputs (scenarioModule "x" 100) pool
            > (passStart scenarioInputs).capacity.remaining pool) ∧
        0 ≤ (moduleStep scenarioInputs (passStart scenarioInputs)
            (scenarioModule "x" 100)).capacity.remaining pool ∧
        (0 ≤ card.outputs.granted pool ↔
          0 ≤ requested scenarioInputs (scenarioModule "x" 100) pool ∧
            0 ≤ (passStart scenarioInputs).capacity.remaining pool) :=
  draw_grants_min scenarioInputs (passStart scenarioInputs) (scenarioModule "x" 100) rfl

/-! ## C3: first-come allocation -/

theorem runPass_pair (inputs : Inputs) (X Y : Module) (hX : X.enabled = true)
    (hY : Y.enabled = true) :
    (runPass inputs [X, Y]).cards =
      [(X.id, enabledCard inputs (resetCapacity inputs) X),
        (Y.id, enabledCard inputs (draw inputs (resetCapacity inputs) X) Y)] := by
  simp [runPass, List.foldl, moduleStep_enabled _ _ _ hX, moduleStep_enabled _ _ _ hY, passStart]

/-- Two enabled modules whose requests fit the pool one by one but not together:
the first is granted its request, uncapped, the second the rest, capped. -/
theorem pair_allocation (inputs : Inputs) (X Y : Module) (pool : Pool)
    (hX : X.enabled = true) (hY : Y.enabled = true)
    (hac : requested inputs X pool ≤ poolCapacity inputs pool)
    (hsum : requested inputs X pool + requested inputs Y pool > poolCapacity inputs pool) :
    grantedList (runPass inputs [X, Y]) pool
        = [requested inputs X pool, poolCapacity inputs pool - requested inputs X pool] ∧
      cappedList (runPass inputs [X, Y]) pool = [false, true] := by
  have hgX : granted inputs (resetCapacity inputs) X pool = requested inputs X pool := by
    rw [granted_eq_min]
    exact min_eq_left hac
  have hrem : (draw inputs (resetCapacity inputs) X).remaining pool
      = poolCapacity inputs pool - requested inputs X pool := by
    rw [draw_remaining, hgX]
    rfl
  have hlt : (draw inputs (resetCapacity inputs) X).remaining pool < requested inputs Y pool := by
    rw [hrem]
    linarith
  have hgY : granted inputs (draw inputs (resetCapacity inputs) X) Y pool
      = poolCapacity inputs pool - requested inputs X pool := by
    rw [granted_eq_min, min_eq_right (le_of_lt hlt), hrem]
  have hwX : warn inputs (resetCapacity inputs) X pool = false := by
    rw [Bool.eq_false_iff, Ne, warn_iff]
    exact not_lt.mpr hac
  have hwY : warn inputs (draw inputs (resetCapacity inputs) X) Y pool = true :=
    (warn_iff _ _ _ _).mpr hlt
  have hout : ∀ (cap : Capacity) (mod : Module),
      (enabledCard inputs cap mod).outputs.granted pool = granted inputs cap mod pool := by
    intro cap mod
    cases pool <;> rfl
  constructor
  · simp only [grantedList, runPass_pair inputs X Y hX hY, List.map_cons, List.map_nil, hout,
      hgX, hgY]
  · simp only [cappedList, runPass_pair inputs X Y hX hY, List.map_cons, List.map_nil,
      enabledCard_capped, hwX, hwY]

/-- C3: two enabled modules X and Y request `a` and `b` units of the same pool
of initial capacity `c`, with `0 ≤ a, b ≤ c` and `a + b > c`.  Processed X then
Y, X is granted `a` and Y `c - a`; processed Y then X, Y is granted `b` and X
`c - b`; in both orders only the later module is flagged capped for the pool. -/
theorem first_come_allocation (inputs : Inputs) (X Y : Module) (pool : Pool)
    (hX : X.enabled = true) (hY : Y.enabled = true)
    (_ha : 0 ≤ requested inputs X pool)
    (hac : requested inputs X pool ≤ poolCapacity inputs pool)
    (_hb : 0 ≤ requested inputs Y pool)
    (hbc : requested inputs Y pool ≤ poolCapacity inputs pool)
    (hsum : requested inputs X pool + requested inputs Y pool > poolCapacity inputs pool) :
    grantedList (runPass inputs [X, Y]) pool
        = [requested inputs X pool, poolCapacity inputs pool - requested inputs X pool] ∧
      cappedList (runPass inputs [X, Y]) pool = [false, true] ∧
      grantedList (runPass inputs [Y, X]) pool
        = [requested inputs Y pool, poolCapacity inputs pool - requested inputs Y pool] ∧
      cappedList (runPass inputs [Y, X]) pool = [false, true] := by
  have hXY := pair_allocation inputs X Y pool hX hY hac hsum
  have hYX := pair_allocation inputs Y X pool hY hX hbc (by linarith)
  exact ⟨hXY.1, hXY.2, hYX.1, hYX.2⟩

theorem scenario_requested (id : String) :
    requested scenarioInputs (scenarioModule id 100) Pool.dv = 80 := by
  simp +decide [requested, procThCapped, procThRaw, specialistCap, share, robShare, field,
    clinicsTh, actionable, baseExams, detPct, capTh, conv, svcOkFactor,
    serviceCoverageFactor, nullish, scenarioModule, Obj.ofList, List.lookup]

theorem scenario_capacity : poolCapacity scenarioInputs Pool.dv = 100 := by
  norm_num [poolCapacity, resetCapacity, Capacity.remaining, scenarioInputs, defaultInputs]

/-- C3 at the scripted scenario: a da Vinci pool of 100 and modules X and Y
requesting 80 each.  X then Y grants X = 80 and Y = 20, Y then X grants Y = 80
and X = 20, and only the later module is flagged capped. -/
theorem first_come_allocation_witness :
    requested scenarioInputs (scenarioModule "x" 100) Pool.dv = 80 ∧
      requested scenarioInputs (scenarioModule "y" 100) Pool.dv = 80 ∧
      poolCapacity scenarioInputs Pool.dv = 100 ∧
      grantedList (runPass scenarioInputs [scenarioModule "x" 100, scenarioModule "y" 100])
        Pool.dv = [80, 20] ∧
      cappedList (runPass scenarioInputs [scenarioModule "x" 100, scenarioModule "y" 100])
        Pool.dv = [false, true] ∧
      grantedList (runPass scenarioInputs [scenarioModule "y" 100, scenarioModule "x" 100])
        Pool.dv = [80, 20] ∧
      cappedList (runPass scenarioInputs [scenarioModule "y" 100, scenarioModule "x" 100])
        Pool.dv = [false, true] := by
  have h := first_come_allocation scenarioInputs (scenarioModule "x" 100)
    (scenarioModule "y" 100) Pool.dv rfl rfl
    (by rw [scenario_requested]; norm_num)
    (by rw [scenario_requested, scenario_capacity]; norm_num)
    (by rw [scenario_requested]; norm_num)
    (by rw [scenario_requested, scenario_capacity]; norm_num)
    (by rw [scenario_requested, scenario_requested, scenario_capacity]; norm_num)
  rw [scenario_requested, scenario_requested, scenario_capacity] at h
  norm_num at h
  exact ⟨scenario_requested "x", scenario_requested "y", scenario_capacity, h⟩

/-! ## C4: disabled modules -/

/-- C4: for a module whose `enabled` flag is false, from any loop state, the
step writes one card and pushes one summary row for that module whose numeric
fields (clinics, follow-ups, procedures, robotic, ION, revenue, leakage) are all
`0`, and leaves both ledger counters (and the totals) as they were. -/
theorem disabled_module_zero (inputs : Inputs) (acc : PassState) (mod : Module)
    (hdisabled : mod.enabled = false) :
    ∃ (card : CardView) (row : SummaryRow),
      (moduleStep inputs acc mod).cards = acc.cards ++ [(mod.id, card)] ∧
      (moduleStep inputs acc mod).summaryRows = acc.summaryRows ++ [row] ∧
      card.outputs = { clinics := 0, procs := 0, rob := 0, ion := 0, revenue := 0, leakage := 0 } ∧
      row =
        { id := mod.id, label := mod.name, clinics := 0, fups := 0, procs := 0, rob := 0,
          ion := 0, revenue := 0 } ∧
      (moduleStep inputs acc mod).capacity.ionRemaining = acc.capacity.ionRemaining ∧
      (moduleStep inputs acc mod).capacity.dvRemaining = acc.capacity.dvRemaining ∧
      (moduleStep inputs acc mod).totals = acc.totals := by
  rw [moduleStep_disabled inputs acc mod hdisabled]
  exact ⟨offCard, offRow mod, rfl, rfl, rfl, rfl, rfl, rfl, rfl⟩

/-- C4 at a disabled copy of the scenario module, first in a pass. -/
theorem disabled_module_zero_witness :
    ∃ (card : CardView) (row : SummaryRow),
      (moduleStep scenarioInputs (passStart scenarioInputs)
          { scenarioModule "x" 100 with enabled := false }).cards
        = (passStart scenarioInputs).cards ++ [("x", card)] ∧
      (moduleStep scenarioInputs (passStart scenarioInputs)
          { scenarioModule "x" 100 with enabled := false }).summaryRows
        = (passStart scenarioInputs).summaryRows ++ [row] ∧
      card.outputs = { clinics := 0, procs := 0, rob := 0, ion := 0, revenue := 0, leakage := 0 } ∧
      row =
        { id := "x", label := "x", clinics := 0, fups := 0, procs := 0, rob := 0,
          ion := 0, revenue := 0 } ∧
      (moduleStep scenarioInputs (passStart scenarioInputs)
          { scenarioModule "x" 100 with enabled := false }).capacity.ionRemaining
        = (passStart scenarioInputs).capacity.ionRemaining ∧
      (moduleStep scenarioInputs (passStart scenarioInputs)
          { scenarioModule "x" 100 with enabled := false }).capacity.dvRemaining
        = (passStart scenarioInputs).capacity.dvRemaining ∧
      (moduleStep scenarioInputs (passStart scenarioInputs)
          { scenarioModule "x" 100 with enabled := false }).totals
        = (passStart scenarioInputs).totals :=
  disabled_module_zero scenarioInputs (passStart scenarioInputs)
    { scenarioModule "x" 100 with enabled := false } rfl

/-! ## C5: the staffing cap -/

/-- C5: for an enabled module, from any loop state, the procedure volume the
step reports (`procThCapped`) and the baseline volume (`procBlCapped`, the
reported volume minus the row's procedure delta) are each
`min(raw volume, specialists * capacityPerSpecialist)` and so at most
`specialists * capacityPerSpecialist`. -/
theorem staffing_cap (inputs : Inputs) (acc : PassState) (mod : Module)
    (henabled : mod.enabled = true) :
    ∃ (card : CardView) (row : SummaryRow),
      (moduleStep inputs acc mod).cards = acc.cards ++ [(mod.id, card)] ∧
      (moduleStep inputs acc mod).summaryRows = acc.summaryRows ++ [row] ∧
      card.outputs.procs
        = min (procThRaw inputs mod) (field mod "specialists" * field mod "capacityPerSpecialist") ∧
      card.outputs.procs ≤ field mod "specialists" * field mod "capacityPerSpecialist" ∧
      card.outputs.procs - row.procs
        = min (procBlRaw inputs mod) (field mod "specialists" * field mod "capacityPerSpecialist") ∧
      card.outputs.procs - row.procs
        ≤ field mod "specialists" * field mod "capacityPerSpecialist" := by
  refine ⟨enabledCard inputs acc.capacity mod, enabledRow inputs acc.capacity mod, ?_, ?_,
    rfl, min_le_right _ _, ?_, ?_⟩
  · rw [moduleStep_enabled inputs acc mod henabled]
  · rw [moduleStep_enabled inputs acc mod henabled]
  · show procThCapped inputs mod - (procThCapped inputs mod - procBlCapped inputs mod) = _
    rw [sub_sub_cancel]
    rfl
  · show procThCapped inputs mod - (procThCapped inputs mod - procBlCapped inputs mod) ≤ _
    rw [sub_sub_cancel]
    exact min_le_right _ _

/-- C5 at the first module of the scenario pass. -/
theorem staffing_cap_witness :
    ∃ (card : CardView) (row : SummaryRow),
      (moduleStep scenarioInputs (passStart scenarioInputs) (scenarioModule "x" 100)).cards
        = (passStart scenarioInputs).cards ++ [("x", card)] ∧
      (moduleStep scenarioInputs (passStart scenarioInputs) (scenarioModule "x" 100)).summaryRows
        = (passStart scenarioInputs).summaryRows ++ [row] ∧
      card.outputs.procs
        = min (procThRaw scenarioInputs (scenarioModule "x" 100))
          (field (scenarioModule "x" 100) "specialists"
            * field (scenarioModule "x" 100) "capacityPerSpecialist") ∧
      card.outputs.procs
        ≤ field (scenarioModule "x" 100) "specialists"
          * field (scenarioModule "x" 100) "capacityPerSpecialist" ∧
      card.outputs.procs - row.procs
        = min (procBlRaw scenarioInputs (scenarioModule "x" 100))
          (field (scenarioModule "x" 100) "specialists"
            * field (scenarioModule "x" 100) "capacityPerSpecialist") ∧
      card.outputs.procs - row.procs
        ≤ field (scenarioModule "x" 100) "specialists"
          * field (scenarioModule "x" 100) "capacityPerSpecialist" :=
  staffing_cap scenarioInputs (passStart scenarioInputs) (scenarioModule "x" 100) rfl

/-! ## C6: the service coverage gate -/

theorem factor_full (services : String → Bool) (req : List String)
    (h : ∀ k ∈ req, services k = true) : serviceCoverageFactor services req = 1 := by
  unfold serviceCoverageFactor
  split_ifs with h0 hall
  · rfl
  · rfl
  · exact absurd (List.all_eq_true.mpr h) hall

theorem factor_gap (services : String → Bool) (req : List String)
    (h : ∃ k ∈ req, services k = false) : serviceCoverageFactor services req = 2 / 5 := by
  obtain ⟨k, hk, hoff⟩ := h
  unfold serviceCoverageFactor
  split_ifs with h0 hall
  · rw [List.length_eq_zero] at h0
    rw [h0] at hk
    exact absurd hk (List.not_mem_nil k)
  · have hon := List.all_eq_true.mp hall k hk
    rw [hoff] at hon
    exact absurd hon (by decide)
  · rfl

theorem factor_ne_zero (services : String → Bool) (req : List String) :
    serviceCoverageFactor services req ≠ 0 := by
  unfold serviceCoverageFactor
  split_ifs <;> norm_num

/-- C6, as stated, fails: a module with a conversion rate of 0 % has a gated
conversion rate of 0 under full coverage and still 0 once the required service
`ip` is marked unavailable, which is no strict decrease. -/
theorem gate_not_strict_for_zero_conversion :
    (∀ k ∈ (gatedModule 0).requiredServices, defaultInputs.services k = true) ∧
      conv defaultInputs (gatedModule 0) = 0 ∧
      conv (withServiceOff defaultInputs "ip") (gatedModule 0) = 0 ∧
      ¬ (conv (withServiceOff defaultInputs "ip") (gatedModule 0)
          < conv defaultInputs (gatedModule 0)) := by
  have h1 : conv defaultInputs (gatedModule 0) = 0 := by
    simp +decide [conv, field, gatedModule, Obj.ofList, List.lookup]
  have h2 : conv (withServiceOff defaultInputs "ip") (gatedModule 0) = 0 := by
    simp +decide [conv, field, gatedModule, Obj.ofList, List.lookup]
  refine ⟨?_, h1, h2, ?_⟩
  · intro k hk
    simp only [gatedModule, List.mem_cons, List.mem_singleton, List.not_mem_nil, or_false] at hk
    rcases hk with rfl | rfl <;> decide
  · rw [h1, h2]
    exact lt_irrefl 0

/-- C6 (amended): `serviceCoverageFactor` returns 1 when every required service
is available and 0.4 when at least one is not, never 0; and for a module under
full coverage, marking any one of its required services unavailable makes the
gated conversion rate exactly 0.4 times the full-coverage rate, all other
inputs equal, which is a strict decrease exactly when the full-coverage rate is
positive. -/
theorem coverage_gate (inputs : Inputs) (mod : Module) (key : String)
    (hkey : key ∈ mod.requiredServices)
    (hfull : ∀ k ∈ mod.requiredServices, inputs.services k = true) :
    (∀ (services : String → Bool) (req : List String),
        ((∀ k ∈ req, services k = true) → serviceCoverageFactor services req = 1) ∧
        ((∃ k ∈ req, services k = false) → serviceCoverageFactor services req = 2 / 5) ∧
        serviceCoverageFactor services req ≠ 0) ∧
      conv (withServiceOff inputs key) mod = 2 / 5 * conv inputs mod ∧
      (conv (withServiceOff inputs key) mod < conv inputs mod ↔ 0 < conv inputs mod) := by
  have hon : svcOkFactor inputs mod = 1 := factor_full inputs.services mod.requiredServices hfull
  have hoff : svcOkFactor (withServiceOff inputs key) mod = 2 / 5 :=
    factor_gap _ mod.requiredServices ⟨key, hkey, by simp [withServiceOff]⟩
  have hconv : conv (withServiceOff inputs key) mod = 2 / 5 * conv inputs mod := by
    unfold conv
    rw [hon, hoff]
    ring
  refine ⟨fun services req =>
    ⟨factor_full services req, factor_gap services req, factor_ne_zero services req⟩, hconv, ?_⟩
  rw [hconv]
  constructor <;> intro h <;> linarith

/-- C6 (amended) at a module converting 50 % under the initial services, with
`ip` marked unavailable: the gated rate falls from 1/2 to 1/5. -/
theorem coverage_gate_witness :
    conv defaultInputs (gatedModule 50) = 1 / 2 ∧
      conv (withServiceOff defaultInputs "ip") (gatedModule 50) = 1 / 5 ∧
      conv (withServiceOff defaultInputs "ip") (gatedModule 50)
        < conv defaultInputs (gatedModule 50) := by
  have hfull : ∀ k ∈ (gatedModule 50).requiredServices, defaultInputs.services k = true := by
    intro k hk
    simp only [gatedModule, List.mem_cons, List.mem_singleton, List.not_mem_nil, or_false] at hk
    rcases hk with rfl | rfl <;> decide
  have h := coverage_gate defaultInputs (gatedModule 50) "ip" (by simp [gatedModule]) hfull
  have h1 : conv defaultInputs (gatedModule 50) = 1 / 2 := by
    unfold conv
    rw [show svcOkFactor defaultInputs (gatedModule 50) = 1 from
      factor_full _ _ hfull]
    simp +decide [field, gatedModule, Obj.ofList, List.lookup]
    norm_num
  refine ⟨h1, ?_, ?_⟩
  · rw [h.2.1, h1]
    norm_num
  · rw [h.2.2, h1]
    norm_num

/-! ## C7: blended prices -/

/-- C7: for each of the four service types `blendedPrices` returns
`(1 - w) * medicarePrice + w * commercialPrice` with the single global
`w = commercialPct / 100`; with clinic prices 150 and 280 and a commercial
share of 10 % the blended clinic price is exactly 163. -/
theorem blended_prices_linear (inputs : Inputs) :
    (blendedPrices inputs).clinic
        = (1 - inputs.commercialPct / 100) * inputs.prices.clinic.medicare
          + inputs.commercialPct / 100 * inputs.prices.clinic.commercial ∧
      (blendedPrices inputs).imaging
        = (1 - inputs.commercialPct / 100) * inputs.prices.imaging.medicare
          + inputs.commercialPct / 100 * inputs.prices.imaging.commercial ∧
      (blendedPrices inputs).proc
        = (1 - inputs.commercialPct / 100) * inputs.prices.proc.medicare
          + inputs.commercialPct / 100 * inputs.prices.proc.commercial ∧
      (blendedPrices inputs).rob
        = (1 - inputs.commercialPct / 100) * inputs.prices.rob.medicare
          + inputs.commercialPct / 100 * inputs.prices.rob.commercial ∧
      (inputs.prices.clinic.medicare = 150 → inputs.prices.clinic.commercial = 280 →
        inputs.commercialPct = 10 → (blendedPrices inputs).clinic = 163) := by
  refine ⟨rfl, rfl, rfl, rfl, ?_⟩
  intro hm hc hw
  show (1 - inputs.commercialPct / 100) * inputs.prices.clinic.medicare
    + inputs.commercialPct / 100 * inputs.prices.clinic.commercial = 163
  rw [hm, hc, hw]
  norm_num

/-- C7 at the initial inputs: clinic prices 150 and 280 blended at 10 % give 163. -/
theorem blended_prices_linear_witness : (blendedPrices defaultInputs).clinic = 163 :=
  (blended_prices_linear defaultInputs).2.2.2.2 rfl rfl rfl

/-! ## C8: rows and totals -/

/-- The loop pushes one row per module, in the order of the module list. -/
theorem foldl_rows (inputs : Inputs) (modules : List Module) :
    ∀ acc : PassState,
      ((modules.foldl (moduleStep inputs) acc).summaryRows.map fun r => (r.id, r.label))
        = (acc.summaryRows.map fun r => (r.id, r.label))
          ++ modules.map fun m => (m.id, m.name) := by
  induction modules with
  | nil => intro acc; simp
  | cons m ms ih =>
    intro acc
    rw [List.foldl_cons, ih]
    cases hen : m.enabled with
    | false => simp [moduleStep_disabled inputs acc m hen, offRow]
    | true => simp [moduleStep_enabled inputs acc m hen, enabledRow]

/-- The loop keeps every total equal to the sum of its column over the rows. -/
theorem foldl_totals (inputs : Inputs) (modules : List Module) :
    ∀ acc : PassState,
      (acc.totals.clinics = (acc.summaryRows.map fun r => r.clinics).sum ∧
        acc.totals.fups = (acc.summaryRows.map fun r => r.fups).sum ∧
        acc.totals.procs = (acc.summaryRows.map fun r => r.procs).sum ∧
        acc.totals.rob = (acc.summaryRows.map fun r => r.rob).sum ∧
        acc.totals.ion = (acc.summaryRows.map fun r => r.ion).sum ∧
        acc.totals.revenue = (acc.summaryRows.map fun r => r.revenue).sum) →
      ((modules.foldl (moduleStep inputs) acc).totals.clinics
          = ((modules.foldl (moduleStep inputs) acc).summaryRows.map fun r => r.clinics).sum ∧
        (modules.foldl (moduleStep inputs) acc).totals.fups
          = ((modules.foldl (moduleStep inputs) acc).summaryRows.map fun r => r.fups).sum ∧
        (modules.foldl (moduleStep inputs) acc).totals.procs
          = ((modules.foldl (moduleStep inputs) acc).summaryRows.map fun r => r.procs).sum ∧
        (modules.foldl (moduleStep inputs) acc).totals.rob
          = ((modules.foldl (moduleStep inputs) acc).summaryRows.map fun r => r.rob).sum ∧
        (modules.foldl (moduleStep inputs) acc).totals.ion
          = ((modules.foldl (moduleStep inputs) acc).summaryRows.map fun r => r.ion).sum ∧
        (modules.foldl (moduleStep inputs) acc).totals.revenue
          = ((modules.foldl (moduleStep inputs) acc).summaryRows.map fun r => r.revenue).sum) := by
  induction modules with
  | nil => intro acc h; exact h
  | cons m ms ih =>
    intro acc h
    rw [List.foldl_cons]
    apply ih
    obtain ⟨h1, h2, h3, h4, h5, h6⟩ := h
    cases hen : m.enabled with
    | false =>
      simp [moduleStep_disabled inputs acc m hen, offRow, h1, h2, h3, h4, h5, h6]
    | true =>
      simp [moduleStep_enabled inputs acc m hen, enabledRow, addTotals, h1, h2, h3, h4, h5, h6]

/-- Disabled modules leave the totals as they are. -/
theorem foldl_totals_disabled (inputs : Inputs) (modules : List Module) :
    ∀ acc : PassState, (∀ m ∈ modules, m.enabled = false) →
      (modules.foldl (moduleStep inputs) acc).totals = acc.totals := by
  induction modules with
  | nil => intro acc _; rfl
  | cons m ms ih =>
    intro acc h
    rw [List.foldl_cons, ih _ (fun m' hm' => h m' (List.mem_cons_of_mem m hm')),
      moduleStep_disabled inputs acc m (h m (List.mem_cons_self m ms))]

/-- C8: the totals of a pass equal, field by field (clinics, fups, procs, rob,
ion, revenue), the sum of that field over the summary rows of the pass; the pass
emits exactly one row per module, in the order of the module list, disabled
modules included; and when every module is disabled all six totals are 0. -/
theorem totals_are_column_sums (inputs : Inputs) (modules : List Module) :
    (runPass inputs modules).totals.clinics
        = ((runPass inputs modules).summaryRows.map fun r => r.clinics).sum ∧
      (runPass inputs modules).totals.fups
        = ((runPass inputs modules).summaryRows.map fun r => r.fups).sum ∧
      (runPass inputs modules).totals.procs
        = ((runPass inputs modules).summaryRows.map fun r => r.procs).sum ∧
      (runPass inputs modules).totals.rob
        = ((runPass inputs modules).summaryRows.map fun r => r.rob).sum ∧
      (runPass inputs modules).totals.ion
        = ((runPass inputs modules).summaryRows.map fun r => r.ion).sum ∧
      (runPass inputs modules).totals.revenue
        = ((runPass inputs modules).summaryRows.map fun r => r.revenue).sum ∧
      ((runPass inputs modules).summaryRows.map fun r => (r.id, r.label))
        = modules.map (fun m => (m.id, m.name)) ∧
      (runPass inputs modules).summaryRows.length = modules.length ∧
      ((∀ m ∈ modules, m.enabled = false) →
        (runPass inputs modules).totals
          = { clinics := 0, fups := 0, procs := 0, rob := 0, ion := 0, revenue := 0 }) := by
  have hsum := foldl_totals inputs modules (passStart inputs) (by simp [passStart])
  have hrows := foldl_rows inputs modules (passStart inputs)
  have hrows' : ((runPass inputs modules).summaryRows.map fun r => (r.id, r.label))
      = modules.map (fun m => (m.id, m.name)) := by
    rw [runPass, hrows]
    simp [passStart]
  have hlen : (runPass inputs modules).summaryRows.length = modules.length := by
    have := congrArg List.length hrows'
    simpa using this
  exact ⟨hsum.1, hsum.2.1, hsum.2.2.1, hsum.2.2.2.1, hsum.2.2.2.2.1, hsum.2.2.2.2.2, hrows', hlen,
    fun hoff => foldl_totals_disabled inputs modules (passStart inputs) hoff⟩

/-- C8 at a pass over two disabled modules: two rows and all-zero totals. -/
theorem totals_are_column_sums_witness :
    (runPass scenarioInputs
        [{ scenarioModule "x" 100 with enabled := false },
          { scenarioModule "y" 100 with enabled := false }]).summaryRows.length = 2 ∧
      (runPass scenarioInputs
        [{ scenarioModule "x" 100 with enabled := false },
          { scenarioModule "y" 100 with enabled := false }]).totals
        = { clinics := 0, fups := 0, procs := 0, rob := 0, ion := 0, revenue := 0 } :=
  ⟨(totals_are_column_sums scenarioInputs _).2.2.2.2.2.2.2.1,
    (totals_are_column_sums scenarioInputs _).2.2.2.2.2.2.2.2 (by
      intro m hm
      simp only [List.mem_cons, List.mem_singleton, List.not_mem_nil, or_false] at hm
      rcases hm with rfl | rfl <;> rfl)⟩

/-! ## C9: determinism -/

/-- C9: two passes over identical inputs and an identical module list produce
identical cards, summary rows, totals and final ledger, whatever ledger values
an earlier pass left behind; running the pass twice in succession gives the
same results and the same final state as running it once. -/
theorem pass_deterministic (s₁ s₂ : State) (hinputs : s₁.inputs = s₂.inputs)
    (hmodules : s₁.modules = s₂.modules) :
    (recalcAndRender s₁).2 = (recalcAndRender s₂).2 ∧
      (recalcAndRender s₁).1.capacity = (recalcAndRender s₂).1.capacity ∧
      recalcAndRender (recalcAndRender s₁).1 = recalcAndRender s₁ := by
  unfold recalcAndRender
  simp only [hinputs, hmodules, and_self]

/-- C9 at the scenario state entered with two different leftover ledgers. -/
theorem pass_deterministic_witness :
    (recalcAndRender (scenarioState 0 0)).2 = (recalcAndRender (scenarioState 7 (-3))).2 ∧
      (recalcAndRender (scenarioState 0 0)).1.capacity
        = (recalcAndRender (scenarioState 7 (-3))).1.capacity ∧
      recalcAndRender (recalcAndRender (scenarioState 0 0)).1
        = recalcAndRender (scenarioState 0 0) :=
  pass_deterministic (scenarioState 0 0) (scenarioState 7 (-3)) rfl rfl

/-! ## C10: coefficients outside their domain -/

theorem div_eq_clamp_div_iff (x : ℚ) : x / 100 = clamp x 0 100 / 100 ↔ 0 ≤ x ∧ x ≤ 100 := by
  unfold clamp
  constructor
  · intro h
    have hx : x = max 0 (min 100 x) := by linarith
    constructor
    · rw [hx]
      exact le_max_left _ _
    · rw [hx]
      exact max_le (by norm_num) (min_le_left _ _)
  · rintro ⟨h0, h100⟩
    rw [min_eq_right h100, max_eq_right h0]

/-- C10, as stated, fails: a capture rate of 150 % is used as the rate 3/2, not
as the clamped 100 / 100 = 1, and the pass reports 150 on-time follow-ups out
of 100 actionable exams. -/
theorem capture_rate_not_clamped :
    overCaptureModule.values "captureThynk" = some 150 ∧
      capTh overCaptureModule = 3 / 2 ∧
      clamp 150 0 100 / 100 = 1 ∧
      capTh overCaptureModule ≠ clamp 150 0 100 / 100 ∧
      actionable scenarioInputs overCaptureModule = 100 ∧
      ((runPass scenarioInputs [overCaptureModule]).cards.map fun c => c.2.outputs.clinics)
        = [150] := by
  have hcap : capTh overCaptureModule = 3 / 2 := by
    simp +decide [capTh, nullish, overCaptureModule, Obj.ofList, List.lookup]
    norm_num
  have hclamp : clamp 150 0 100 / 100 = 1 := by
    norm_num [clamp]
  have hact : actionable scenarioInputs overCaptureModule = 100 := by
    simp +decide [actionable, baseExams, detPct, field, nullish, overCaptureModule, Obj.ofList,
      List.lookup]
  have hen : overCaptureModule.enabled = true := rfl
  refine ⟨by simp +decide [overCaptureModule, Obj.ofList, List.lookup], hcap, hclamp, ?_, hact, ?_⟩
  · rw [hcap, hclamp]
    norm_num
  · simp only [runPass, List.foldl, moduleStep_enabled _ _ _ hen, passStart, List.nil_append,
      List.map_cons, List.map_nil, enabledCard, clinicsTh, hact, hcap]
    norm_num

/-- C10 (amended): the pass applies no clamp to the coefficients of a module,
in or out of their domain.  The rate it uses for a percentage field is the field
divided by 100, which is the field clamped to [0,100] divided by 100 exactly
when the field lies in [0,100] (for the actionable or detection rate inside
`actionable`: exactly when it lies in [0,100] or the exposure is 0).  The
follow-up ratio, the headcount and the capacity per specialist are used as
given, also when negative, which agrees with the values clamped to ≥ 0 exactly
when the ratio is ≥ 0 or the procedure volume is 0, resp. when headcount and
capacity are both ≥ 0 or their product is 0. -/
theorem rates_clamped_iff_in_range (inputs : Inputs) (mod : Module) :
    (capTh mod = clamp (nullish (mod.values "captureThynk") 70) 0 100 / 100 ↔
        0 ≤ nullish (mod.values "captureThynk") 70 ∧
          nullish (mod.values "captureThynk") 70 ≤ 100) ∧
      (capBl mod = clamp (nullish (mod.values "captureBaseline") 30) 0 100 / 100 ↔
        0 ≤ nullish (mod.values "captureBaseline") 30 ∧
          nullish (mod.values "captureBaseline") 30 ≤ 100) ∧
      (detPct mod = clamp (field mod "detectionPct") 0 100 / 100 ↔
        0 ≤ field mod "detectionPct" ∧ field mod "detectionPct" ≤ 100) ∧
      (robShare mod = clamp (field mod "roboticShareOfProcedures") 0 100 / 100 ↔
        0 ≤ field mod "roboticShareOfProcedures" ∧ field mod "roboticShareOfProcedures" ≤ 100) ∧
      (ionShare mod = clamp (field mod "ionShareOfProcedures") 0 100 / 100 ↔
        0 ≤ field mod "ionShareOfProcedures" ∧ field mod "ionShareOfProcedures" ≤ 100) ∧
      (conv inputs mod
          = clamp (field mod "conversionToProcedure") 0 100 / 100 * svcOkFactor inputs mod ↔
        0 ≤ field mod "conversionToProcedure" ∧ field mod "conversionToProcedure" ≤ 100) ∧
      (mod.kind = "lcs" →
        (actionable inputs mod
            = baseExams inputs mod * (clamp (field mod "actionablePct") 0 100 / 100) ↔
          (0 ≤ field mod "actionablePct" ∧ field mod "actionablePct" ≤ 100) ∨
            baseExams inputs mod = 0)) ∧
      (mod.kind ≠ "lcs" →
        (actionable inputs mod
            = baseExams inputs mod * (clamp (field mod "detectionPct") 0 100 / 100) ↔
          (0 ≤ field mod "detectionPct" ∧ field mod "detectionPct" ≤ 100) ∨
            baseExams inputs mod = 0)) ∧
      (fupsTh inputs mod = procThCapped inputs mod * max (field mod "followupsPerProcedure") 0 ↔
        0 ≤ field mod "followupsPerProcedure" ∨ procThCapped inputs mod = 0) ∧
      (fupsBl inputs mod = procBlCapped inputs mod * max (field mod "followupsPerProcedure") 0 ↔
        0 ≤ field mod "followupsPerProcedure" ∨ procBlCapped inputs mod = 0) ∧
      (specialistCap mod
          = max (field mod "specialists") 0 * max (field mod "capacityPerSpecialist") 0 ↔
        (0 ≤ field mod "specialists" ∧ 0 ≤ field mod "capacityPerSpecialist") ∨
          field mod "specialists" * field mod "capacityPerSpecialist" = 0) ∧
      capTh mod = nullish (mod.values "captureThynk") 70 / 100 ∧
      capBl mod = nullish (mod.values "captureBaseline") 30 / 100 ∧
      detPct mod = field mod "detectionPct" / 100 ∧
      robShare mod = field mod "roboticShareOfProcedures" / 100 ∧
      ionShare mod = field mod "ionShareOfProcedures" / 100 ∧
      conv inputs mod = field mod "conversionToProcedure" / 100 * svcOkFactor inputs mod ∧
      (mod.kind = "lcs" →
        actionable inputs mod = baseExams inputs mod * (field mod "actionablePct" / 100)) ∧
      (mod.kind ≠ "lcs" →
        actionable inputs mod = baseExams inputs mod * (field mod "detectionPct" / 100)) ∧
      fupsTh inputs mod = procThCapped inputs mod * field mod "followupsPerProcedure" ∧
      fupsBl inputs mod = procBlCapped inputs mod * field mod "followupsPerProcedure" ∧
      specialistCap mod = field mod "specialists" * field mod "capacityPerSpecialist" := by
  have hlcs : mod.kind = "lcs" →
      actionable inputs mod = baseExams inputs mod * (field mod "actionablePct" / 100) := by
    intro hk
    unfold actionable
    rw [if_pos hk]
  have hother : mod.kind ≠ "lcs" →
      actionable inputs mod = baseExams inputs mod * (field mod "detectionPct" / 100) := by
    intro hk
    unfold actionable detPct
    rw [if_neg hk]
  have hmax : ∀ f : ℚ, f = max f 0 ↔ 0 ≤ f := by
    intro f
    constructor
    · intro h
      rw [h]
      exact le_max_right _ _
    · intro h
      exact (max_eq_left h).symm
  refine ⟨div_eq_clamp_div_iff _, div_eq_clamp_div_iff _, div_eq_clamp_div_iff _,
    div_eq_clamp_div_iff _, div_eq_clamp_div_iff _, ?_, ?_, ?_, ?_, ?_, ?_, rfl, rfl, rfl, rfl,
    rfl, rfl, hlcs, hother, rfl, rfl, rfl⟩
  · unfold conv
    have hne : svcOkFactor inputs mod ≠ 0 := factor_ne_zero inputs.services mod.requiredServices
    rw [mul_left_inj' hne]
    exact div_eq_clamp_div_iff _
  · intro hk
    rw [hlcs hk, mul_eq_mul_left_iff, div_eq_clamp_div_iff]
  · intro hk
    rw [hother hk, mul_eq_mul_left_iff, div_eq_clamp_div_iff]
  · unfold fupsTh followups
    rw [mul_eq_mul_left_iff, hmax]
  · unfold fupsBl followups
    rw [mul_eq_mul_left_iff, hmax]
  · unfold specialistCap
    rcases le_or_lt 0 (field mod "specialists") with hs | hs
    · rcases le_or_lt 0 (field mod "capacityPerSpecialist") with hc | hc
      · rw [max_eq_left hs, max_eq_left hc]
        exact ⟨fun _ => Or.inl ⟨hs, hc⟩, fun _ => rfl⟩
      · rw [max_eq_right (le_of_lt hc), mul_zero]
        constructor
        · intro h
          exact Or.inr h
        · rintro (⟨_, hc'⟩ | h)
          · exact absurd hc' (not_le.mpr hc)
          · exact h
    · rw [max_eq_right (le_of_lt hs), zero_mul]
      constructor
      · intro h
        exact Or.inr h
      · rintro (⟨hs', _⟩ | h)
        · exact absurd hs' (not_le.mpr hs)
        · exact h

/-- C10 (amended) at the module with a capture rate of 150 %: the rate used is
150 / 100 and differs from the clamped one, while its in-range baseline capture
rate of 30 % is used as the clamped 30 / 100. -/
theorem rates_clamped_iff_in_range_witness :
    capTh overCaptureModule = 150 / 100 ∧
      capTh overCaptureModule
        ≠ clamp (nullish (overCaptureModule.values "captureThynk") 70) 0 100 / 100 ∧
      capBl overCaptureModule
        = clamp (nullish (overCaptureModule.values "captureBaseline") 30) 0 100 / 100 := by
  have h := rates_clamped_iff_in_range scenarioInputs overCaptureModule
  have hth : nullish (overCaptureModule.values "captureThynk") 70 = 150 := by
    simp +decide [nullish, overCaptureModule, Obj.ofList, List.lookup]
  have hbl : nullish (overCaptureModule.values "captureBaseline") 30 = 30 := by
    simp +decide [nullish, overCaptureModule, Obj.ofList, List.lookup]
  refine ⟨?_, ?_, ?_⟩
  · rw [h.2.2.2.2.2.2.2.2.2.2.2.1, hth]
  · intro heq
    have hr := h.1.mp heq
    rw [hth] at hr
    norm_num at hr
  · apply h.2.1.mpr
    rw [hbl]
    norm_num

/-! ## C12: the revenue delta -/

theorem revenueModule_facts :
    procThCapped scenarioInputs revenueModule = 40 ∧
      granted scenarioInputs (resetCapacity scenarioInputs) revenueModule Pool.dv = 4 ∧
      granted scenarioInputs (resetCapacity scenarioInputs) revenueModule Pool.ion = 20 := by
  have hp : procThCapped scenarioInputs revenueModule = 40 := by
    simp +decide [procThCapped, procThRaw, specialistCap, field, clinicsTh, actionable,
      baseExams, detPct, capTh, conv, svcOkFactor, serviceCoverageFactor, nullish,
      revenueModule, Obj.ofList, List.lookup]
    norm_num
  have hdv : requested scenarioInputs revenueModule Pool.dv = 4 := by
    unfold requested
    rw [hp]
    simp +decide [share, robShare, field, revenueModule, Obj.ofList, List.lookup]
    norm_num
  have hion : requested scenarioInputs revenueModule Pool.ion = 20 := by
    unfold requested
    rw [hp]
    simp +decide [share, ionShare, field, revenueModule, Obj.ofList, List.lookup]
    norm_num
  have hcap : ∀ pool, (resetCapacity scenarioInputs).remaining pool = 100 := by
    intro pool
    cases pool <;>
      norm_num [resetCapacity, Capacity.remaining, scenarioInputs, defaultInputs]
  refine ⟨hp, ?_, ?_⟩
  · rw [granted_eq_min, hdv, hcap]
    norm_num
  · rw [granted_eq_min, hion, hcap]
    norm_num

/-- C12, as stated, fails: for a module with 40 procedures, of which 20 are
granted by ION and 4 by da Vinci, the procedure revenue of the intervention
arm is `retained * (36 * procPrice + 4 * robPrice)`; a three-way split agrees
with it only when the ION units are priced at the blended standard procedure
price, so ION is no category with a price of its own. -/
theorem ion_units_have_no_own_price :
    procRevTh scenarioInputs (resetCapacity scenarioInputs) revenueModule
        = retained scenarioInputs * (36 * (blendedPrices scenarioInputs).proc
          + 4 * (blendedPrices scenarioInputs).rob) ∧
      ∀ ionPrice : ℚ,
        splitThreeWays (retained scenarioInputs) 40 20 4 ionPrice
            (blendedPrices scenarioInputs).rob (blendedPrices scenarioInputs).proc
          = procRevTh scenarioInputs (resetCapacity scenarioInputs) revenueModule →
        ionPrice = (blendedPrices scenarioInputs).proc := by
  obtain ⟨hp, hdv, _⟩ := revenueModule_facts
  have hrev : procRevTh scenarioInputs (resetCapacity scenarioInputs) revenueModule
      = retained scenarioInputs * (36 * (blendedPrices scenarioInputs).proc
        + 4 * (blendedPrices scenarioInputs).rob) := by
    unfold procRevTh nonRobTh
    rw [hp, hdv]
    norm_num
  refine ⟨hrev, ?_⟩
  intro ionPrice h
  rw [hrev] at h
  have hret : retained scenarioInputs = 3 / 4 := by
    norm_num [retained, scenarioInputs, defaultInputs]
  rw [splitThreeWays, hret] at h
  linarith

/-- C12 (amended): for an enabled module, from any loop state, the revenue the
step reports (on the card and in the row) is the intervention total minus the
baseline total, where each arm's total is
`clinicVisits * clinicPrice + followUps * imagingPrice + retained * procedureRevenue`
with `retained = retainedPct / 100` scaling only the procedure revenue, and the
procedure revenue of an arm is split in two: its da Vinci units (the granted
amount, for the baseline arm `min(baselineProcedures, granted)`) at the blended
robotic price and the remaining procedures `max(procedures - daVinciUnits, 0)`,
ION units included, at the blended standard procedure price. -/
theorem revenue_delta_split (inputs : Inputs) (acc : PassState) (mod : Module)
    (henabled : mod.enabled = true) :
    ∃ (card : CardView) (row : SummaryRow),
      (moduleStep inputs acc mod).cards = acc.cards ++ [(mod.id, card)] ∧
      (moduleStep inputs acc mod).summaryRows = acc.summaryRows ++ [row] ∧
      row.revenue = card.outputs.revenue ∧
      card.outputs.revenue
        = (card.outputs.clinics * (blendedPrices inputs).clinic
            + card.outputs.procs * field mod "followupsPerProcedure"
              * (blendedPrices inputs).imaging
            + inputs.retainedPct / 100
              * (max (card.outputs.procs - card.outputs.rob) 0 * (blendedPrices inputs).proc
                + card.outputs.rob * (blendedPrices inputs).rob))
          - ((card.outputs.clinics - row.clinics) * (blendedPrices inputs).clinic
            + (card.outputs.procs - row.procs) * field mod "followupsPerProcedure"
              * (blendedPrices inputs).imaging
            + inputs.retainedPct / 100
              * (max ((card.outputs.procs - row.procs)
                    - min (card.outputs.procs - row.procs) card.outputs.rob) 0
                  * (blendedPrices inputs).proc
                + min (card.outputs.procs - row.procs) card.outputs.rob
                  * (blendedPrices inputs).rob)) := by
  refine ⟨enabledCard inputs acc.capacity mod, enabledRow inputs acc.capacity mod, ?_, ?_,
    rfl, ?_⟩
  · rw [moduleStep_enabled inputs acc mod henabled]
  · rw [moduleStep_enabled inputs acc mod henabled]
  · show revenueDelta inputs acc.capacity mod = _
    simp only [enabledCard, enabledRow, sub_sub_cancel]
    rfl

/-- C12 (amended) at the module with 40 procedures, first in a pass over the
scenario inputs. -/
theorem revenue_delta_split_witness :
    ∃ (card : CardView) (row : SummaryRow),
      (moduleStep scenarioInputs (passStart scenarioInputs) revenueModule).cards
        = (passStart scenarioInputs).cards ++ [(revenueModule.id, card)] ∧
      (moduleStep scenarioInputs (passStart scenarioInputs) revenueModule).summaryRows
        = (passStart scenarioInputs).summaryRows ++ [row] ∧
      row.revenue = card.outputs.revenue ∧
      card.outputs.revenue
        = (card.outputs.clinics * (blendedPrices scenarioInputs).clinic
            + card.outputs.procs * field revenueModule "followupsPerProcedure"
              * (blendedPrices scenarioInputs).imaging
            + scenarioInputs.retainedPct / 100
              * (max (card.outputs.procs - card.outputs.rob) 0
                  * (blendedPrices scenarioInputs).proc
                + card.outputs.rob * (blendedPrices scenarioInputs).rob))
          - ((card.outputs.clinics - row.clinics) * (blendedPrices scenarioInputs).clinic
            + (card.outputs.procs - row.procs) * field revenueModule "followupsPerProcedure"
              * (blendedPrices scenarioInputs).imaging
            + scenarioInputs.retainedPct / 100
              * (max ((card.outputs.procs - row.procs)
                    - min (card.outputs.procs - row.procs) card.outputs.rob) 0
                  * (blendedPrices scenarioInputs).proc
                + min (card.outputs.procs - row.procs) card.outputs.rob
                  * (blendedPrices scenarioInputs).rob)) :=
  revenue_delta_split scenarioInputs (passStart scenarioInputs) revenueModule rfl
/-! ## C18: conservation of capacity -/

theorem enabledCard_granted (inputs : Inputs) (cap : Capacity) (mod : Module) (pool : Pool) :
    (enabledCard inputs cap mod).outputs.granted pool = granted inputs cap mod pool := by
  cases pool <;> rfl

/-- One step keeps `granted so far + remaining` unchanged. -/
theorem moduleStep_conserves (inputs : Inputs) (acc : PassState) (mod : Module) (pool : Pool) :
    (grantedList (moduleStep inputs acc mod) pool).sum
        + (moduleStep inputs acc mod).capacity.remaining pool
      = (grantedList acc pool).sum + acc.capacity.remaining pool := by
  cases hen : mod.enabled with
  | false =>
    rw [moduleStep_disabled inputs acc mod hen]
    cases pool <;> simp [grantedList, offCard, Outputs.granted]
  | true =>
    rw [moduleStep_enabled inputs acc mod hen]
    simp only [grantedList, List.map_append, List.map_cons, List.map_nil, List.sum_append,
      List.sum_cons, List.sum_nil, enabledCard_granted, draw_remaining]
    ring

theorem foldl_conserves (inputs : Inputs) (modules : List Module) (pool : Pool) :
    ∀ acc : PassState,
      (grantedList (modules.foldl (moduleStep inputs) acc) pool).sum
          + (modules.foldl (moduleStep inputs) acc).capacity.remaining pool
        = (grantedList acc pool).sum + acc.capacity.remaining pool := by
  induction modules with
  | nil => intro acc; rfl
  | cons m ms ih =>
    intro acc
    rw [List.foldl_cons, ih, moduleStep_conserves]

theorem moduleStep_cards (inputs : Inputs) (acc : PassState) (mod : Module) :
    (moduleStep inputs acc mod).cards = acc.cards ++ [stepCard inputs acc mod] := by
  cases hen : mod.enabled with
  | false => simp [moduleStep_disabled inputs acc mod hen, stepCard, hen]
  | true => simp [moduleStep_enabled inputs acc mod hen, stepCard, hen]

/-- A relation between the card a step writes and its module holds between the
cards of the loop and the module list, position by position. -/
theorem foldl_cards_rel (inputs : Inputs) (R : String × CardView → Module → Prop)
    (hstep : ∀ (acc : PassState) (mod : Module), R (stepCard inputs acc mod) mod)
    (modules : List Module) :
    ∀ (acc : PassState) (pre : List Module), List.Forall₂ R acc.cards pre →
      List.Forall₂ R (modules.foldl (moduleStep inputs) acc).cards (pre ++ modules) := by
  induction modules with
  | nil => intro acc pre h; simpa using h
  | cons m ms ih =>
    intro acc pre h
    have h' : List.Forall₂ R (moduleStep inputs acc m).cards (pre ++ [m]) := by
      rw [moduleStep_cards]
      exact List.rel_append h (List.Forall₂.cons (hstep acc m) List.Forall₂.nil)
    have := ih (moduleStep inputs acc m) (pre ++ [m]) h'
    simpa using this

/-- C18: after a full pass the da Vinci units granted over all modules (the
`rob` output of each card; there is one card per module, in list order, and the
card of a disabled module shows 0) plus `dvRemaining` equal
`dvCount * dvCapacity`, and the ION units granted plus `ionRemaining` equal
`ionCount * ionCapacity`; hence with non-negative pool capacities and requests
the total granted by a pool is at most its capacity. -/
theorem capacity_conserved (inputs : Inputs) (modules : List Module) :
    ((runPass inputs modules).cards.map fun c => c.2.outputs.rob).sum
          + (runPass inputs modules).capacity.dvRemaining
        = inputs.dvCount * inputs.dvCapacity ∧
      ((runPass inputs modules).cards.map fun c => c.2.outputs.ion).sum
          + (runPass inputs modules).capacity.ionRemaining
        = inputs.ionCount * inputs.ionCapacity ∧
      List.Forall₂ (fun (c : String × CardView) (m : Module) =>
          c.1 = m.id ∧ (m.enabled = false → c.2.outputs.rob = 0 ∧ c.2.outputs.ion = 0))
        (runPass inputs modules).cards modules ∧
      (0 ≤ inputs.ionCount * inputs.ionCapacity → 0 ≤ inputs.dvCount * inputs.dvCapacity →
        (∀ mod ∈ modules, mod.enabled = true → ∀ pool, 0 ≤ requested inputs mod pool) →
        ((runPass inputs modules).cards.map fun c => c.2.outputs.rob).sum
            ≤ inputs.dvCount * inputs.dvCapacity ∧
          ((runPass inputs modules).cards.map fun c => c.2.outputs.ion).sum
            ≤ inputs.ionCount * inputs.ionCapacity) := by
  have hdv := foldl_conserves inputs modules Pool.dv (passStart inputs)
  have hion := foldl_conserves inputs modules Pool.ion (passStart inputs)
  have hdv' : ((runPass inputs modules).cards.map fun c => c.2.outputs.rob).sum
      + (runPass inputs modules).capacity.dvRemaining = inputs.dvCount * inputs.dvCapacity := by
    simpa [grantedList, passStart, resetCapacity, Capacity.remaining, Outputs.granted, runPass]
      using hdv
  have hion' : ((runPass inputs modules).cards.map fun c => c.2.outputs.ion).sum
      + (runPass inputs modules).capacity.ionRemaining
        = inputs.ionCount * inputs.ionCapacity := by
    simpa [grantedList, passStart, resetCapacity, Capacity.remaining, Outputs.granted, runPass]
      using hion
  refine ⟨hdv', hion', ?_, ?_⟩
  · have h := foldl_cards_rel inputs
      (fun (c : String × CardView) (m : Module) =>
        c.1 = m.id ∧ (m.enabled = false → c.2.outputs.rob = 0 ∧ c.2.outputs.ion = 0))
      (by
        intro acc mod
        cases hen : mod.enabled <;> simp [stepCard, hen, offCard])
      modules (passStart inputs) [] (by simp [passStart])
    simpa [runPass] using h
  · intro hcion hcdv hreq
    have hstart : ∀ pool, 0 ≤ (passStart inputs).capacity.remaining pool := by
      intro pool
      cases pool
      · exact hcion
      · exact hcdv
    have hrem := (trace_from inputs modules (passStart inputs) hstart hreq).2
    have h1 : 0 ≤ (runPass inputs modules).capacity.dvRemaining := (hrem Pool.dv).1
    have h2 : 0 ≤ (runPass inputs modules).capacity.ionRemaining := (hrem Pool.ion).1
    constructor <;> linarith

/-- C18 at the scenario pass: the two modules are granted 80 and 20 da Vinci
units out of 100, and nothing remains. -/
theorem capacity_conserved_witness :
    ((runPass scenarioInputs [scenarioModule "x" 100, scenarioModule "y" 100]).cards.map
        fun c => c.2.outputs.rob).sum
      ≤ scenarioInputs.dvCount * scenarioInputs.dvCapacity ∧
    ((runPass scenarioInputs [scenarioModule "x" 100, scenarioModule "y" 100]).cards.map
        fun c => c.2.outputs.ion).sum
      ≤ scenarioInputs.ionCount * scenarioInputs.ionCapacity :=
  (capacity_conserved scenarioInputs [scenarioModule "x" 100, scenarioModule "y" 100]).2.2.2
    (by norm_num [scenarioInputs, defaultInputs])
    (by norm_num [scenarioInputs, defaultInputs])
    (by
      intro mod hmod _ pool
      simp only [List.mem_cons, List.mem_singleton, List.not_mem_nil, or_false] at hmod
      rcases hmod with rfl | rfl <;> cases pool <;>
        · simp +decide [requested, procThCapped, procThRaw, specialistCap, share, robShare,
            ionShare, field, clinicsTh, actionable, baseExams, detPct, capTh, conv, svcOkFactor,
            serviceCoverageFactor, nullish, scenarioModule, Obj.ofList, List.lookup])
/-! ## C17: the baseline arm and the ledger -/

theorem sameButBaseline_field {m m' : Module} (h : sameButBaseline m m') (key : String)
    (hkey : key ≠ "captureBaseline") : field m key = field m' key := by
  obtain ⟨_, _, _, _, hdef, _, hval⟩ := h
  unfold field
  rw [hval key hkey, hdef]

theorem sameButBaseline_requested (inputs : Inputs) {m m' : Module} (h : sameButBaseline m m') :
    clinicsTh inputs m = clinicsTh inputs m' ∧
      procThCapped inputs m = procThCapped inputs m' ∧
      ∀ pool, requested inputs m pool = requested inputs m' pool := by
  have hf := sameButBaseline_field h
  obtain ⟨_, _, hkind, _, _, hreq, hval⟩ := h
  have hbase : baseExams inputs m = baseExams inputs m' := by
    unfold baseExams
    rw [hkind, hval "lcsMonthlyOverride" (by decide), hval "annualMrOverride" (by decide),
      hval "ctsPerYear" (by decide)]
  have hact : actionable inputs m = actionable inputs m' := by
    unfold actionable detPct
    rw [hkind, hbase, hf "actionablePct" (by decide), hf "detectionPct" (by decide)]
  have hclin : clinicsTh inputs m = clinicsTh inputs m' := by
    unfold clinicsTh capTh
    rw [hact, hval "captureThynk" (by decide)]
  have hconv : conv inputs m = conv inputs m' := by
    unfold conv svcOkFactor
    rw [hf "conversionToProcedure" (by decide), hreq]
  have hcap : specialistCap m = specialistCap m' := by
    unfold specialistCap
    rw [hf "specialists" (by decide), hf "capacityPerSpecialist" (by decide)]
  have hproc : procThCapped inputs m = procThCapped inputs m' := by
    unfold procThCapped procThRaw
    rw [hclin, hconv, hcap]
  refine ⟨hclin, hproc, ?_⟩
  intro pool
  unfold requested
  rw [hproc]
  cases pool
  · show _ * ionShare m = _ * ionShare m'
    unfold ionShare
    rw [hf "ionShareOfProcedures" (by decide)]
  · show _ * robShare m = _ * robShare m'
    unfold robShare
    rw [hf "roboticShareOfProcedures" (by decide)]

theorem sameButBaseline_step (inputs : Inputs) {m m' : Module} (h : sameButBaseline m m')
    (acc acc' : PassState) (hcap : acc.capacity = acc'.capacity) :
    (moduleStep inputs acc m).capacity = (moduleStep inputs acc' m').capacity ∧
      ((stepCard inputs acc m).1, (stepCard inputs acc m).2.interventionSide)
        = ((stepCard inputs acc' m').1, (stepCard inputs acc' m').2.interventionSide) := by
  obtain ⟨hclin, hproc, hreq⟩ := sameButBaseline_requested inputs h
  have hgr' : ∀ pool,
      granted inputs acc'.capacity m pool = granted inputs acc'.capacity m' pool := by
    intro pool
    unfold granted
    rw [hreq pool]
  have hw' : ∀ pool, warn inputs acc'.capacity m pool = warn inputs acc'.capacity m' pool := by
    intro pool
    unfold warn
    rw [hreq pool]
  obtain ⟨hid, _, _, hen, _, _, _⟩ := h
  cases hen' : m'.enabled with
  | false =>
    have hen0 : m.enabled = false := by rw [hen, hen']
    rw [moduleStep_disabled inputs acc m hen0, moduleStep_disabled inputs acc' m' hen']
    simp [stepCard, hen0, hen', hid, hcap]
  | true =>
    have hen1 : m.enabled = true := by rw [hen, hen']
    rw [moduleStep_enabled inputs acc m hen1, moduleStep_enabled inputs acc' m' hen']
    simp [stepCard, hen1, hen', hid, draw, hgr', hw', hcap, enabledCard,
      CardView.interventionSide, hclin, hproc]

theorem sameButBaseline_foldl (inputs : Inputs) {modules modules' : List Module}
    (h : List.Forall₂ sameButBaseline modules modules') :
    ∀ acc acc' : PassState, acc.capacity = acc'.capacity →
      (acc.cards.map fun c => (c.1, c.2.interventionSide))
        = (acc'.cards.map fun c => (c.1, c.2.interventionSide)) →
      ((modules.foldl (moduleStep inputs) acc).cards.map fun c => (c.1, c.2.interventionSide))
          = ((modules'.foldl (moduleStep inputs) acc').cards.map
            fun c => (c.1, c.2.interventionSide)) ∧
        ((modules.scanl (moduleStep inputs) acc).map fun s => s.capacity)
          = ((modules'.scanl (moduleStep inputs) acc').map fun s => s.capacity) := by
  induction h with
  | nil =>
    intro acc acc' hcap hcards
    exact ⟨hcards, by simp [hcap]⟩
  | @cons a b l l' hm _ ih =>
    intro acc acc' hcap hcards
    obtain ⟨hcap', hcard⟩ := sameButBaseline_step inputs hm acc acc' hcap
    have hcards' : ((moduleStep inputs acc a).cards.map fun c => (c.1, c.2.interventionSide))
        = ((moduleStep inputs acc' b).cards.map fun c => (c.1, c.2.interventionSide)) := by
      rw [moduleStep_cards, moduleStep_cards, List.map_append, List.map_append, hcards]
      simp only [List.map_cons, List.map_nil, hcard]
    obtain ⟨h1, h2⟩ := ih _ _ hcap' hcards'
    refine ⟨by simpa using h1, ?_⟩
    rw [List.scanl_cons, List.scanl_cons, List.map_append, List.map_append, h2]
    simp [hcap]

/-- C17: the baseline arm never draws from the ledger.  For two module lists
that differ only in the modules' `captureBaseline` values, a pass over the same
inputs writes, module by module, the same intervention-side outputs (clinics,
procedures, da Vinci and ION grants, badge) and goes through the same ledger
counters after every step; and for an enabled module, from any loop state, the
resource delta the row reports for a pool is
`grant - min(baselineCappedProcedures, grant)` with `grant` the amount granted
to the intervention arm. -/
theorem baseline_never_draws (inputs : Inputs) (modules modules' : List Module)
    (hsame : List.Forall₂ sameButBaseline modules modules') :
    ((runPass inputs modules).cards.map fun c => (c.1, c.2.interventionSide))
        = ((runPass inputs modules').cards.map fun c => (c.1, c.2.interventionSide)) ∧
      ledgerTrace inputs modules = ledgerTrace inputs modules' ∧
      ∀ (acc : PassState) (mod : Module), mod.enabled = true →
        ∃ (card : CardView) (row : SummaryRow),
          (moduleStep inputs acc mod).cards = acc.cards ++ [(mod.id, card)] ∧
          (moduleStep inputs acc mod).summaryRows = acc.summaryRows ++ [row] ∧
          card.outputs.procs - row.procs = procBlCapped inputs mod ∧
          row.rob = card.outputs.rob - min (procBlCapped inputs mod) card.outputs.rob ∧
          row.ion = card.outputs.ion - min (procBlCapped inputs mod) card.outputs.ion := by
  obtain ⟨h1, h2⟩ := sameButBaseline_foldl inputs hsame (passStart inputs) (passStart inputs)
    rfl rfl
  refine ⟨h1, h2, ?_⟩
  intro acc mod hen
  refine ⟨enabledCard inputs acc.capacity mod, enabledRow inputs acc.capacity mod, ?_, ?_, ?_,
    rfl, rfl⟩
  · rw [moduleStep_enabled inputs acc mod hen]
  · rw [moduleStep_enabled inputs acc mod hen]
  · show procThCapped inputs mod - (procThCapped inputs mod - procBlCapped inputs mod) = _
    rw [sub_sub_cancel]

theorem baselineModule_same (id : String) (a b : ℚ) :
    sameButBaseline (baselineModule id a) (baselineModule id b) := by
  refine ⟨rfl, rfl, rfl, rfl, rfl, rfl, ?_⟩
  intro key hkey
  simp [baselineModule, hkey]

/-- C17 at the scenario pass with baseline capture rates 0 % and 0 % against
60 % and 90 %. -/
theorem baseline_never_draws_witness :
    ((runPass scenarioInputs [baselineModule "x" 0, baselineModule "y" 0]).cards.map
        fun c => (c.1, c.2.interventionSide))
      = ((runPass scenarioInputs [baselineModule "x" 60, baselineModule "y" 90]).cards.map
        fun c => (c.1, c.2.interventionSide)) ∧
    ledgerTrace scenarioInputs [baselineModule "x" 0, baselineModule "y" 0]
      = ledgerTrace scenarioInputs [baselineModule "x" 60, baselineModule "y" 90] :=
  ⟨(baseline_never_draws scenarioInputs _ _
      (List.Forall₂.cons (baselineModule_same "x" 0 60)
        (List.Forall₂.cons (baselineModule_same "y" 0 90) List.Forall₂.nil))).1,
    (baseline_never_draws scenarioInputs _ _
      (List.Forall₂.cons (baselineModule_same "x" 0 60)
        (List.Forall₂.cons (baselineModule_same "y" 0 90) List.Forall₂.nil))).2.1⟩
/-! ## C19: the sign of the uplift -/

theorem blend_nonneg (inputs : Inputs) (a b : ℚ)
    (hw : 0 ≤ inputs.commercialPct ∧ inputs.commercialPct ≤ 100) (ha : 0 ≤ a) (hb : 0 ≤ b) :
    0 ≤ blend inputs a b := by
  unfold blend
  have h1 : 0 ≤ 1 - inputs.commercialPct / 100 := by linarith [hw.2]
  have h2 : 0 ≤ inputs.commercialPct / 100 := by linarith [hw.1]
  positivity

/-- C19: for an enabled module whose coefficients are in their documented
domain (exposure ≥ 0, every percentage in [0,100], captureThynk ≥
captureBaseline, follow-up ratio, headcount and capacity per specialist ≥ 0),
under inputs in their domain (prices ≥ 0, commercialPct and retainedPct in
[0,100], pool capacities ≥ 0), the six deltas of the summary row the step
pushes (clinics, follow-ups, procedures, da Vinci, ION, revenue) are all ≥ 0,
from any loop state, so whatever the remaining ledger capacity is. -/
theorem uplift_nonneg (inputs : Inputs) (acc : PassState) (mod : Module)
    (henabled : mod.enabled = true) (hinputs : inputs.inDomain)
    (hmod : mod.inDomain inputs) :
    ∃ row : SummaryRow,
      (moduleStep inputs acc mod).summaryRows = acc.summaryRows ++ [row] ∧
      0 ≤ row.clinics ∧ 0 ≤ row.fups ∧ 0 ≤ row.procs ∧ 0 ≤ row.rob ∧ 0 ≤ row.ion ∧
      0 ≤ row.revenue := by
  obtain ⟨hw, hret, hpc, hpi, hpp, hpr, _, _⟩ := hinputs
  obtain ⟨hexp, hactp, hdetp, hcth, hcbl, hcap, hconvp, _, _, hfup, hspec, hcps⟩ := hmod
  have hPc : 0 ≤ (blendedPrices inputs).clinic := blend_nonneg inputs _ _ hw hpc.1 hpc.2
  have hPi : 0 ≤ (blendedPrices inputs).imaging := blend_nonneg inputs _ _ hw hpi.1 hpi.2
  have hPp : 0 ≤ (blendedPrices inputs).proc := blend_nonneg inputs _ _ hw hpp.1 hpp.2
  have hPr : 0 ≤ (blendedPrices inputs).rob := blend_nonneg inputs _ _ hw hpr.1 hpr.2
  have hretained : 0 ≤ retained inputs := by
    unfold retained
    linarith [hret.1]
  have hact : 0 ≤ actionable inputs mod := by
    unfold actionable detPct
    split_ifs
    · exact mul_nonneg hexp (by linarith [hactp.1])
    · exact mul_nonneg hexp (by linarith [hdetp.1])
  have hcapd : capBl mod ≤ capTh mod := by
    unfold capBl capTh
    linarith
  have hclin : clinicsBl inputs mod ≤ clinicsTh inputs mod := by
    unfold clinicsBl clinicsTh
    exact mul_le_mul_of_nonneg_left hcapd hact
  have hconv : 0 ≤ conv inputs mod := by
    unfold conv
    have hf : 0 ≤ svcOkFactor inputs mod := by
      unfold svcOkFactor serviceCoverageFactor
      split_ifs <;> norm_num
    exact mul_nonneg (by linarith [hconvp.1]) hf
  have hraw : procBlRaw inputs mod ≤ procThRaw inputs mod := by
    unfold procBlRaw procThRaw
    exact mul_le_mul_of_nonneg_right hclin hconv
  have hproc : procBlCapped inputs mod ≤ procThCapped inputs mod := by
    unfold procBlCapped procThCapped
    exact min_le_min hraw (le_refl _)
  have hfups : fupsBl inputs mod ≤ fupsTh inputs mod := by
    unfold fupsBl fupsTh followups
    exact mul_le_mul_of_nonneg_right hproc hfup
  have hnonrob : nonRobBl inputs acc.capacity mod ≤ nonRobTh inputs acc.capacity mod := by
    unfold nonRobBl nonRobTh
    rcases le_total (procBlCapped inputs mod) (granted inputs acc.capacity mod Pool.dv) with h | h
    · rw [min_eq_left h, sub_self, max_self]
      exact le_max_right _ _
    · rw [min_eq_right h]
      exact max_le_max (by linarith) (le_refl _)
  have hrobmin : min (procBlCapped inputs mod) (granted inputs acc.capacity mod Pool.dv)
      ≤ granted inputs acc.capacity mod Pool.dv := min_le_right _ _
  have hprocrev : procRevBl inputs acc.capacity mod ≤ procRevTh inputs acc.capacity mod := by
    unfold procRevBl procRevTh
    apply mul_le_mul_of_nonneg_left _ hretained
    have h1 := mul_le_mul_of_nonneg_right hnonrob hPp
    have h2 := mul_le_mul_of_nonneg_right hrobmin hPr
    linarith
  have hrev : 0 ≤ revenueDelta inputs acc.capacity mod := by
    unfold revenueDelta
    have h1 := mul_le_mul_of_nonneg_right hclin hPc
    have h2 := mul_le_mul_of_nonneg_right hfups hPi
    linarith
  refine ⟨enabledRow inputs acc.capacity mod, ?_, ?_, ?_, ?_, ?_, ?_, hrev⟩
  · rw [moduleStep_enabled inputs acc mod henabled]
  · exact sub_nonneg.mpr hclin
  · exact sub_nonneg.mpr hfups
  · exact sub_nonneg.mpr hproc
  · exact sub_nonneg.mpr (min_le_right _ _)
  · exact sub_nonneg.mpr (min_le_right _ _)

theorem scenarioInputs_inDomain : scenarioInputs.inDomain := by
  norm_num [Inputs.inDomain, scenarioInputs, defaultInputs]

theorem revenueModule_inDomain : revenueModule.inDomain scenarioInputs := by
  simp +decide [Module.inDomain, baseExams, field, nullish, revenueModule, Obj.ofList,
    List.lookup]

/-- C19 at the module with 40 procedures, first in a pass over the scenario
inputs. -/
theorem uplift_nonneg_witness :
    ∃ row : SummaryRow,
      (moduleStep scenarioInputs (passStart scenarioInputs) revenueModule).summaryRows
        = (passStart scenarioInputs).summaryRows ++ [row] ∧
      0 ≤ row.clinics ∧ 0 ≤ row.fups ∧ 0 ≤ row.procs ∧ 0 ≤ row.rob ∧ 0 ≤ row.ion ∧
      0 ≤ row.revenue :=
  uplift_nonneg scenarioInputs (passStart scenarioInputs) revenueModule rfl
    scenarioInputs_inDomain revenueModule_inDomain

/-! ## C20: the catalogue -/

/-- C20: in the static `MODULES` list the ids are pairwise distinct; every
identifier of every `requiredServices` list is a key of the initial
`state.inputs.services` (so under the initial services every module's gate
factor is 1); every default percentage (`actionablePct` for kind `lcs`,
`detectionPct` otherwise, `captureThynk`, `captureBaseline`,
`conversionToProcedure`, `ionShareOfProcedures`, `roboticShareOfProcedures`)
lies in [0,100], with the two device shares adding up to at most 100;
`followupsPerProcedure`, `specialists` and `capacityPerSpecialist` are
non-negative; and every module of kind `ct` has `shareOfCts` in [0,1]. -/
theorem catalogue_well_formed :
    (MODULES.map fun d => d.id).Nodup ∧
      (∀ d ∈ MODULES, ∀ key ∈ d.requiredServices,
        key ∈ serviceKeys ∧ defaultInputs.services key = true) ∧
      (∀ d ∈ MODULES, serviceCoverageFactor defaultInputs.services d.requiredServices = 1) ∧
      (∀ d ∈ MODULES,
        (d.kind = "lcs" → d.defaultIn "actionablePct" 0 100) ∧
        (d.kind ≠ "lcs" → d.defaultIn "detectionPct" 0 100) ∧
        d.defaultIn "captureThynk" 0 100 ∧
        d.defaultIn "captureBaseline" 0 100 ∧
        d.defaultIn "conversionToProcedure" 0 100 ∧
        d.defaultIn "ionShareOfProcedures" 0 100 ∧
        d.defaultIn "roboticShareOfProcedures" 0 100 ∧
        d.sharesFit ∧
        d.defaultAtLeast "followupsPerProcedure" 0 ∧
        d.defaultAtLeast "specialists" 0 ∧
        d.defaultAtLeast "capacityPerSpecialist" 0 ∧
        (d.kind = "ct" → d.defaultIn "shareOfCts" 0 1)) := by
  have hreq : ∀ d ∈ MODULES, ∀ key ∈ d.requiredServices,
      key ∈ serviceKeys ∧ defaultInputs.services key = true := by
    decide
  refine ⟨by decide, hreq, ?_, ?_⟩
  · intro d hd
    exact factor_full _ _ (fun key hkey => (hreq d hd key hkey).2)
  · intro d hd
    simp only [List.mem_cons, MODULES, List.mem_singleton, List.not_mem_nil, or_false] at hd
    rcases hd with rfl | rfl | rfl | rfl | rfl | rfl | rfl | rfl | rfl | rfl | rfl | rfl | rfl |
      rfl | rfl <;>
    · simp +decide [ModuleDef.defaultIn, ModuleDef.defaultAtLeast, ModuleDef.sharesFit,
        ModuleDef.default?, List.lookup]
      norm_num
/-! ## Lemmas on writes found by id -/

theorem updateFirst_id (id : String) : ∀ ms : List Module, updateFirst id (fun m => m) ms = ms := by
  intro ms
  induction ms with
  | nil => rfl
  | cons m ms ih =>
    unfold updateFirst
    split_ifs
    · rfl
    · rw [ih]

theorem updateFirst_append (id : String) (f : Module → Module) (m : Module) (hm : m.id = id)
    (rest : List Module) :
    ∀ done : List Module, (∀ d ∈ done, d.id ≠ id) →
      updateFirst id f (done ++ m :: rest) = done ++ f m :: rest := by
  intro done
  induction done with
  | nil =>
    intro _
    simp [updateFirst, hm]
  | cons d ds ih =>
    intro h
    have hd : d.id ≠ id := h d (List.mem_cons_self d ds)
    rw [List.cons_append]
    unfold updateFirst
    rw [if_neg hd, ih (fun x hx => h x (List.mem_cons_of_mem d hx))]
    rfl

/-- Writes found by id, one for each module of a list with pairwise distinct
ids and in the order of the list, rewrite the modules position by position. -/
theorem foldl_updateFirst {α : Type} (key : α → String) (f : α → Module → Module)
    (hf : ∀ x m, (f x m).id = m.id) :
    ∀ (xs : List α) (done todo : List Module),
      (todo.map fun m => m.id) = xs.map key →
      ((done ++ todo).map fun m => m.id).Nodup →
      xs.foldl (fun cur x => updateFirst (key x) (f x) cur) (done ++ todo)
        = done ++ List.zipWith f xs todo := by
  intro xs
  induction xs with
  | nil =>
    intro done todo hkeys _
    have : todo = [] := by simpa using hkeys
    subst this
    simp
  | cons x xs ih =>
    intro done todo hkeys hnodup
    cases todo with
    | nil => simp at hkeys
    | cons m rest =>
      simp only [List.map_cons, List.cons.injEq] at hkeys
      obtain ⟨hm, hrest⟩ := hkeys
      have hdone : ∀ d ∈ done, d.id ≠ key x := by
        intro d hd heq
        rw [List.map_append, List.map_cons, List.nodup_append] at hnodup
        exact hnodup.2.2 (List.mem_map_of_mem (fun m => m.id) hd)
          (by rw [heq, ← hm]; exact List.mem_cons_self _ _)
      rw [List.foldl_cons, updateFirst_append (key x) (f x) m hm rest done hdone]
      have happ : done ++ f x m :: rest = (done ++ [f x m]) ++ rest := by simp
      rw [happ, ih (done ++ [f x m]) rest hrest (by simpa [hf] using hnodup)]
      simp

theorem foldl_modules {α : Type} (g : α → List Module → List Module) :
    ∀ (xs : List α) (state : State),
      xs.foldl (fun s x => { s with modules := g x s.modules }) state
        = { state with modules := xs.foldl (fun cur x => g x cur) state.modules } := by
  intro xs
  induction xs with
  | nil => intro state; rfl
  | cons x xs ih =>
    intro state
    rw [List.foldl_cons, ih]
    rfl

theorem zipWith_self {α β : Type} (f : α → α → β) :
    ∀ l : List α, List.zipWith f l l = l.map fun a => f a a := by
  intro l
  induction l with
  | nil => rfl
  | cons a l ih => simp [ih]

theorem withCtsPerYear_id (annualCts : ℚ) (mod : Module) :
    (withCtsPerYear annualCts mod).id = mod.id := by
  unfold withCtsPerYear writeField
  split_ifs <;> rfl

/-- With pairwise distinct ids, the loop of `distributeCtsToModules` rewrites
every module to its hydrated form and nothing else. -/
theorem hydrateCts_modules (state : State)
    (hnodup : (state.modules.map fun m => m.id).Nodup) :
    hydrateCts state
      = { state with modules := state.modules.map (withCtsPerYear state.inputs.annualCts) } := by
  have hbody : ∀ (s : State) (x : Module),
      (if x.kind = "ct" then
        setModuleField s x.id "ctsPerYear"
          (RawValue.number (jsRound (state.inputs.annualCts * ctShare x)))
      else s)
      = { s with
          modules :=
            (updateFirst x.id
              (fun cur => if x.kind = "ct" then
                writeField "ctsPerYear"
                  (RawValue.number (jsRound (state.inputs.annualCts * ctShare x))) cur
                else cur) s.modules) } := by
    intro s x
    by_cases hk : x.kind = "ct"
    · simp [hk, setModuleField]
    · simp [hk, updateFirst_id]
  unfold hydrateCts
  rw [funext₂ hbody, foldl_modules]
  have h := foldl_updateFirst (fun m : Module => m.id)
    (fun x cur => if x.kind = "ct" then
      writeField "ctsPerYear"
        (RawValue.number (jsRound (state.inputs.annualCts * ctShare x))) cur
      else cur)
    (by
      intro x m
      dsimp only
      unfold writeField
      split_ifs <;> rfl)
    state.modules [] state.modules rfl (by simpa using hnodup)
  simp only [List.nil_append] at h
  rw [h, zipWith_self]
  rfl

/-! ## C11: the exposure -/

/-- C11, as stated, fails: an `lcs` module with a monthly override of 100 has
the exposure 1200, twelve times the override; and a `ct` module whose
`ctsPerYear` is null has the exposure 0, not the 18000 CTs that its share of
the annual CT volume attributes to it. -/
theorem exposure_is_not_the_override :
    lcsOverrideModule.values "lcsMonthlyOverride" = some 100 ∧
      baseExams defaultInputs lcsOverrideModule = 1200 ∧
      blankCtModule.values "ctsPerYear" = none ∧
      baseExams defaultInputs blankCtModule = 0 ∧
      jsRound (defaultInputs.annualCts * ctShare blankCtModule) = 18000 := by
  refine ⟨by simp +decide [lcsOverrideModule, Obj.ofEntries, List.lookup], ?_,
    by simp +decide [blankCtModule, pulmDefaults, Obj.ofEntries, List.lookup], ?_, ?_⟩
  · simp +decide [baseExams, nullish, lcsOverrideModule, Obj.ofEntries, List.lookup]
    norm_num
  · simp +decide [baseExams, nullish, blankCtModule, pulmDefaults, Obj.ofEntries, List.lookup]
  · simp +decide [ctShare, nullish, blankCtModule, pulmDefaults, Obj.ofEntries, List.lookup,
      defaultInputs]
    unfold jsRound
    norm_num

/-- C11 (amended): the exposure `baseExams` of a module is, for kind `lcs`,
twelve times the monthly override when that is non-null (a 0 override counts as
set) and `12 * monthlyLcs` when it is null; for kind `mr`, the annual override
when non-null and `annualProstateMrs` when null; for any other kind (`ct`), the
module's `ctsPerYear` when non-null and 0 when null, where
`distributeCtsToModules` sets `ctsPerYear` of every `ct` module (ids pairwise
distinct) to the module's rounded share of the global annual CT volume. -/
theorem exposure_resolution (inputs : Inputs) (mod : Module) :
    (mod.kind = "lcs" →
        (∀ v, mod.values "lcsMonthlyOverride" = some v → baseExams inputs mod = 12 * v) ∧
        (mod.values "lcsMonthlyOverride" = none → baseExams inputs mod = 12 * inputs.monthlyLcs)) ∧
      (mod.kind ≠ "lcs" → mod.kind = "mr" →
        (∀ v, mod.values "annualMrOverride" = some v → baseExams inputs mod = v) ∧
        (mod.values "annualMrOverride" = none → baseExams inputs mod = inputs.annualProstateMrs)) ∧
      (mod.kind ≠ "lcs" → mod.kind ≠ "mr" →
        (∀ v, mod.values "ctsPerYear" = some v → baseExams inputs mod = v) ∧
        (mod.values "ctsPerYear" = none → baseExams inputs mod = 0)) ∧
      (mod.kind = "ct" →
        baseExams inputs (withCtsPerYear inputs.annualCts mod)
          = jsRound (inputs.annualCts * ctShare mod)) ∧
      (∀ state : State, (state.modules.map fun m => m.id).Nodup →
        (distributeCtsToModules state).inputs = state.inputs ∧
        (distributeCtsToModules state).modules
          = state.modules.map (withCtsPerYear state.inputs.annualCts)) := by
  refine ⟨?_, ?_, ?_, ?_, ?_⟩
  · intro hk
    unfold baseExams
    rw [if_pos hk]
    constructor
    · intro v hv
      rw [hv]
      simp only [nullish]
      ring
    · intro hv
      rw [hv]
      simp only [nullish]
      ring
  · intro hk1 hk2
    unfold baseExams
    rw [if_neg hk1, if_pos hk2]
    constructor
    · intro v hv
      rw [hv]
      rfl
    · intro hv
      rw [hv]
      rfl
  · intro hk1 hk2
    unfold baseExams
    rw [if_neg hk1, if_neg hk2]
    constructor
    · intro v hv
      rw [hv]
      rfl
    · intro hv
      rw [hv]
      rfl
  · intro hk
    have hkind : (withCtsPerYear inputs.annualCts mod).kind = "ct" := by
      simp [withCtsPerYear, hk, writeField]
    unfold baseExams
    rw [hkind]
    simp +decide [withCtsPerYear, hk, writeField, nullish, RawValue.stored]
  · intro state hnodup
    unfold distributeCtsToModules recalcAndRender
    rw [hydrateCts_modules state hnodup]
    exact ⟨rfl, rfl⟩

/-- C11 (amended) at the blank `ct` module under the initial inputs: once
`distributeCtsToModules` has run, its exposure is 18000. -/
theorem exposure_resolution_witness :
    baseExams defaultInputs (withCtsPerYear defaultInputs.annualCts blankCtModule) = 18000 := by
  rw [(exposure_resolution defaultInputs blankCtModule).2.2.2.1 rfl]
  simp +decide [ctShare, nullish, blankCtModule, pulmDefaults, Obj.ofEntries, List.lookup,
      defaultInputs]
  unfold jsRound
  norm_num

/-! ## C16: the range of the global inputs -/

theorem clamp_mem (n : ℚ) : 0 ≤ clamp n 0 100 ∧ clamp n 0 100 ≤ 100 := by
  unfold clamp
  exact ⟨le_max_left _ _, max_le (by norm_num) (min_le_left _ _)⟩

theorem clampNumber_mem (n : Option ℚ) :
    0 ≤ clampNumber n 0 100 ∧ clampNumber n 0 100 ≤ 100 := by
  cases n with
  | none => norm_num [clampNumber]
  | some x => exact clamp_mem x

theorem distributeCtsToModules_inputs (state : State) :
    (distributeCtsToModules state).inputs = state.inputs := by
  have h : ∀ (ms : List Module) (s : State),
      (ms.foldl
        (fun s m =>
          if m.kind = "ct" then
            setModuleField s m.id "ctsPerYear"
              (RawValue.number (jsRound (state.inputs.annualCts * ctShare m)))
          else s) s).inputs = s.inputs := by
    intro ms
    induction ms with
    | nil => intro s; rfl
    | cons m ms ih =>
      intro s
      rw [List.foldl_cons, ih]
      split_ifs <;> rfl
  exact h state.modules state

/-- C16, as stated, fails: `setFromInputs` stores a price as typed, so a clinic
price of -5 in the form leaves a negative entry in the price table. -/
theorem price_not_clamped :
    (setFromInputs negativePriceForm (scenarioState 0 0)).inputs.prices.clinic.medicare = -5 ∧
      ¬ (0 ≤ (setFromInputs negativePriceForm
        (scenarioState 0 0)).inputs.prices.clinic.medicare) := by
  have h : (setFromInputs negativePriceForm (scenarioState 0 0)).inputs.prices.clinic.medicare
      = -5 := rfl
  refine ⟨h, ?_⟩
  rw [h]
  norm_num

/-- C16 (amended): after `setFromInputs`, for arbitrary form values,
`commercialPct` and `retainedPct` lie in [0,100] and each of the eight prices is
the number in the form (0 when it is not a number), hence non-negative whenever
the form holds no negative price; after `resetAll` the two percentages lie in
[0,100] and the eight prices are non-negative; and `clamp(n, 0, 100)` lies in
[0,100] for every `n`, being 0 when `n` is not a number. -/
theorem global_inputs_range (form : Form) (state : State) :
    ((0 ≤ (setFromInputs form state).inputs.commercialPct ∧
          (setFromInputs form state).inputs.commercialPct ≤ 100) ∧
        (0 ≤ (setFromInputs form state).inputs.retainedPct ∧
          (setFromInputs form state).inputs.retainedPct ≤ 100)) ∧
      ((setFromInputs form state).inputs.prices
        = { clinic :=
              { medicare := orZero form.priceClinicMedicare
                commercial := orZero form.priceClinicCommercial }
            imaging :=
              { medicare := orZero form.priceImagingMedicare
                commercial := orZero form.priceImagingCommercial }
            proc :=
              { medicare := orZero form.priceProcMedicare
                commercial := orZero form.priceProcCommercial }
            rob :=
              { medicare := orZero form.priceRobMedicare
                commercial := orZero form.priceRobCommercial } }) ∧
      (∀ price : Option ℚ, (∀ v, price = some v → 0 ≤ v) → 0 ≤ orZero price) ∧
      ((0 ≤ (resetAll state).1.inputs.commercialPct ∧
          (resetAll state).1.inputs.commercialPct ≤ 100) ∧
        (0 ≤ (resetAll state).1.inputs.retainedPct ∧
          (resetAll state).1.inputs.retainedPct ≤ 100) ∧
        0 ≤ (resetAll state).1.inputs.prices.clinic.medicare ∧
        0 ≤ (resetAll state).1.inputs.prices.clinic.commercial ∧
        0 ≤ (resetAll state).1.inputs.prices.imaging.medicare ∧
        0 ≤ (resetAll state).1.inputs.prices.imaging.commercial ∧
        0 ≤ (resetAll state).1.inputs.prices.proc.medicare ∧
        0 ≤ (resetAll state).1.inputs.prices.proc.commercial ∧
        0 ≤ (resetAll state).1.inputs.prices.rob.medicare ∧
        0 ≤ (resetAll state).1.inputs.prices.rob.commercial) ∧
      (∀ n : Option ℚ, 0 ≤ clampNumber n 0 100 ∧ clampNumber n 0 100 ≤ 100) ∧
      clampNumber none 0 100 = 0 := by
  refine ⟨⟨clampNumber_mem _, clampNumber_mem _⟩, rfl, ?_, ?_, clampNumber_mem, rfl⟩
  · intro price h
    cases price with
    | none => exact le_refl _
    | some v => exact h v rfl
  · have hin : (resetAll state).1.inputs
        = (setFromInputs defaultForm
          { state with
            modules := state.modules.map fun m =>
              { m with enabled := true, values := m.defaults } }).inputs := by
      unfold resetAll recalcAndRender
      exact distributeCtsToModules_inputs _
    rw [hin]
    simp only [setFromInputs, defaultForm, orZero, clampNumber, clamp]
    norm_num

/-- C16 (amended) at the initial form: no price in it is negative, so the
clinic price that `setFromInputs` stores is non-negative. -/
theorem global_inputs_range_witness :
    0 ≤ orZero defaultForm.priceClinicMedicare :=
  (global_inputs_range defaultForm (scenarioState 0 0)).2.2.1 defaultForm.priceClinicMedicare
    (by
      intro v hv
      have : v = 150 := by
        simp only [defaultForm, Option.some.injEq] at hv
        exact hv.symm
      rw [this]
      norm_num)

/-! ## C13: loading a malformed scenario -/

/-- C13 at the failing input: the payload `{"inputs": {"commercialPct": 50},
"modules": 5}` makes `json.modules?.forEach` throw after `Object.assign` has
run; the error is caught and the warning logged, but `commercialPct` is now 50
instead of the 10 it was.  No error escapes for any hash, and the state is
unchanged when the hash has no scenario, fails to decode or parse, or parses to
`null`. -/
theorem load_keeps_inputs_of_bad_payload :
    loadScenarioFromUrl malformedModulesHash (scenarioState 0 0)
        = Outcome.returned
          ({ scenarioState 0 0 with
              inputs := { scenarioInputs with commercialPct := 50 } }, true) ∧
      (scenarioState 0 0).inputs.commercialPct = 10 ∧
      (∀ (hash : Hash) (state : State),
        ∃ r, loadScenarioFromUrl hash state = Outcome.returned r) ∧
      (∀ state : State,
        loadScenarioFromUrl Hash.noScenario state = Outcome.returned (state, false) ∧
        loadScenarioFromUrl (Hash.scenario Parsed.failed) state
          = Outcome.returned (state, true) ∧
        loadScenarioFromUrl (Hash.scenario Parsed.null) state
          = Outcome.returned (state, true)) := by
  refine ⟨rfl, rfl, ?_, fun state => ⟨rfl, rfl, rfl⟩⟩
  intro hash state
  cases hash with
  | noScenario => exact ⟨_, rfl⟩
  | scenario parsed =>
    cases h : loadBody parsed state with
    | returned s => exact ⟨(s, false), by simp [loadScenarioFromUrl, h]⟩
    | threw s => exact ⟨(s, true), by simp [loadScenarioFromUrl, h]⟩
/-! ## C14: the scenario round trip -/

theorem loadModules_some :
    ∀ (xs : List SavedModule) (modules : List Module),
      loadModules (xs.map some) modules
        = Outcome.returned
          (xs.foldl (fun cur x => updateFirst x.id (loadModule x) cur) modules) := by
  intro xs
  induction xs with
  | nil => intro modules; rfl
  | cons x xs ih =>
    intro modules
    simp only [List.map_cons, loadModules, List.foldl_cons]
    exact ih _

/-- With pairwise distinct ids, `reflectModulesToDom` rewrites every module to
its prefilled form and nothing else. -/
theorem reflectModulesToDom_modules (state : State)
    (hnodup : (state.modules.map fun m => m.id).Nodup) :
    reflectModulesToDom state
      = { state with modules := state.modules.map (prefilled state.inputs.annualCts) } := by
  have hbody : ∀ (s : State) (x : Module),
      (if x.kind = "ct" ∧ x.values "ctsPerYear" = none then
        setModuleField s x.id "ctsPerYear"
          (RawValue.number (jsRound (state.inputs.annualCts * ctShare x)))
      else s)
      = { s with
          modules :=
            (updateFirst x.id
              (fun cur => if x.kind = "ct" ∧ x.values "ctsPerYear" = none then
                writeField "ctsPerYear"
                  (RawValue.number (jsRound (state.inputs.annualCts * ctShare x))) cur
                else cur) s.modules) } := by
    intro s x
    by_cases hk : x.kind = "ct" ∧ x.values "ctsPerYear" = none
    · simp only [if_pos hk, setModuleField]
    · simp only [if_neg hk, updateFirst_id]
  unfold reflectModulesToDom
  rw [funext₂ hbody, foldl_modules]
  have h := foldl_updateFirst (fun m : Module => m.id)
    (fun x cur => if x.kind = "ct" ∧ x.values "ctsPerYear" = none then
      writeField "ctsPerYear"
        (RawValue.number (jsRound (state.inputs.annualCts * ctShare x))) cur
      else cur)
    (by
      intro x m
      dsimp only
      unfold writeField
      split_ifs <;> rfl)
    state.modules [] state.modules rfl (by simpa using hnodup)
  simp only [List.nil_append] at h
  rw [h, zipWith_self]
  rfl

theorem mergeValues_saved (ownKeys : String → Bool) (mod : Module) (defaults : Obj)
    (hdef : defaults = mod.defaults)
    (hkeys : ∀ key, (mod.values key ≠ none ∨ mod.defaults key ≠ none) → ownKeys key = true) :
    mergeValues defaults (savedModule ownKeys mod).values = mod.values := by
  funext key
  subst hdef
  unfold mergeValues savedModule
  by_cases hk : ownKeys key = true
  · simp [hk]
  · have hnone : mod.values key = none ∧ mod.defaults key = none := by
      by_contra hcon
      apply hk
      apply hkeys key
      by_contra hboth
      push_neg at hboth
      exact hcon hboth
    simp [hk, hnone.1, hnone.2]

theorem module_eq {a b : Module} (h1 : a.id = b.id) (h2 : a.name = b.name)
    (h3 : a.kind = b.kind) (h4 : a.enabled = b.enabled) (h5 : a.defaults = b.defaults)
    (h6 : a.values = b.values) (h7 : a.requiredServices = b.requiredServices) : a = b := by
  cases a
  cases b
  simp only [Module.mk.injEq]
  exact ⟨h1, h2, h3, h4, h5, h6, h7⟩

theorem loadModule_saved (ownKeys : String → Bool) {t s : Module} (hts : sameEntry t s)
    (hkeys : ∀ key, (s.values key ≠ none ∨ s.defaults key ≠ none) → ownKeys key = true) :
    loadModule (savedModule ownKeys s) t = s := by
  obtain ⟨hid, hname, hkind, hdef, hreq⟩ := hts
  exact module_eq hid hname hkind rfl hdef (mergeValues_saved ownKeys s t.defaults hdef hkeys) hreq

theorem zipWith_loadModule (ownKeys : Module → String → Bool) {target saved : List Module}
    (hentry : List.Forall₂ sameEntry target saved)
    (hkeys : ∀ m ∈ saved, ∀ key,
      (m.values key ≠ none ∨ m.defaults key ≠ none) → ownKeys m key = true) :
    List.zipWith loadModule (saved.map fun m => savedModule (ownKeys m) m) target = saved := by
  induction hentry with
  | nil => rfl
  | @cons t s ts ss hts _ ih =>
    have hs := hkeys s (List.mem_cons_self s ss)
    have hrest := ih (fun m hm => hkeys m (List.mem_cons_of_mem s hm))
    rw [List.map_cons, List.zipWith_cons_cons, hrest, loadModule_saved (ownKeys s) hts hs]

theorem sameEntry_ids {target saved : List Module}
    (hentry : List.Forall₂ sameEntry target saved) :
    (target.map fun m => m.id) = saved.map fun m => m.id := by
  induction hentry with
  | nil => rfl
  | cons h _ ih => simp [h.1, ih]

/-- Loading what `saveScenarioUrl` has saved from `saved`, into a state over the
same catalogue entries, gives the inputs of `saved` and its modules, prefilled. -/
theorem load_saved (ownKeys : Module → String → Bool) (saved target : State)
    (hnodup : (saved.modules.map fun m => m.id).Nodup)
    (hentry : List.Forall₂ sameEntry target.modules saved.modules)
    (hkeys : ∀ m ∈ saved.modules, ∀ key,
      (m.values key ≠ none ∨ m.defaults key ≠ none) → ownKeys m key = true) :
    loadScenarioFromUrl (saveScenarioUrl ownKeys saved) target
      = Outcome.returned
        ({ inputs := saved.inputs
           capacity := target.capacity
           modules := saved.modules.map (prefilled saved.inputs.annualCts) }, false) := by
  have hids := sameEntry_ids hentry
  have hfold := foldl_updateFirst (fun x : SavedModule => x.id) loadModule (fun _ _ => rfl)
    (saved.modules.map fun m => savedModule (ownKeys m) m) [] target.modules
    (by rw [hids, List.map_map]; rfl) (by simpa [hids] using hnodup)
  simp only [List.nil_append] at hfold
  rw [zipWith_loadModule ownKeys hentry hkeys] at hfold
  have hload : loadModules
      (saved.modules.map fun m => some (savedModule (ownKeys m) m)) target.modules
      = Outcome.returned saved.modules := by
    have := loadModules_some (saved.modules.map fun m => savedModule (ownKeys m) m)
      target.modules
    rw [List.map_map, hfold] at this
    exact this
  have hreflect := reflectModulesToDom_modules
    { inputs := saved.inputs, capacity := target.capacity, modules := saved.modules } hnodup
  simp only [saveScenarioUrl, loadScenarioFromUrl, loadBody, hload]
  have hin : assignInputs (savedInputs saved.inputs) target.inputs = saved.inputs := rfl
  rw [hin, hreflect]

theorem prefilled_of_set (annualCts : ℚ) (mod : Module)
    (h : mod.kind = "ct" → mod.values "ctsPerYear" ≠ none) : prefilled annualCts mod = mod := by
  unfold prefilled
  rw [if_neg]
  rintro ⟨hk, hv⟩
  exact h hk hv

theorem ofEntries_none (entries : List (String × Option ℚ)) (key : String)
    (h : key ∉ entries.map Prod.fst) : Obj.ofEntries entries key = none := by
  have hlook : entries.lookup key = none := by
    rw [List.lookup_eq_none_iff]
    intro p hp
    rw [bne_iff_ne]
    intro heq
    exact h (List.mem_map.mpr ⟨p, hp, heq.symm⟩)
  unfold Obj.ofEntries
  rw [hlook]
  rfl

theorem blankCtKeys_complete (key : String)
    (h : blankCtModule.values key ≠ none ∨ blankCtModule.defaults key ≠ none) :
    blankCtKeys blankCtModule key = true := by
  by_contra hk
  have hnot : key ∉ (pulmDefaults ++ [("ctsPerYear", none)]).map Prod.fst := by
    intro hmem
    apply hk
    simpa [blankCtKeys] using hmem
  have hv : blankCtModule.values key = none := ofEntries_none _ key hnot
  have hd : blankCtModule.defaults key = none := by
    apply ofEntries_none
    intro hmem
    apply hnot
    rw [List.map_append]
    exact List.mem_append_left _ hmem
  rcases h with h | h
  · exact h hv
  · exact h hd

/-- C14, as stated, fails: a state whose `ct` module has a null `ctsPerYear`
(the field was cleared) is saved and loaded back; the merge restores the null,
but `reflectModulesToDom` then prefills `ctsPerYear` with the module's share of
the annual CTs, 18000, so the values are not reproduced. -/
theorem round_trip_prefills_blank_cts :
    blankCtModule.values "ctsPerYear" = none ∧
      loadScenarioFromUrl (saveScenarioUrl blankCtKeys blankCtState) blankCtState
        = Outcome.returned
          ({ blankCtState with
              modules := [writeField "ctsPerYear" (RawValue.number 18000) blankCtModule] },
            false) ∧
      (writeField "ctsPerYear" (RawValue.number 18000) blankCtModule).values "ctsPerYear"
        = some 18000 := by
  have hnone : blankCtModule.values "ctsPerYear" = none := by
    simp +decide [blankCtModule, pulmDefaults, Obj.ofEntries, List.lookup]
  have hround : jsRound (defaultInputs.annualCts * ctShare blankCtModule) = 18000 := by
    simp +decide [ctShare, nullish, blankCtModule, pulmDefaults, Obj.ofEntries, List.lookup,
      defaultInputs]
    unfold jsRound
    norm_num
  have hload := load_saved blankCtKeys blankCtState blankCtState (by decide)
    (List.Forall₂.cons ⟨rfl, rfl, rfl, rfl, rfl⟩ List.Forall₂.nil)
    (by
      intro m hm key hkey
      have hm' : m = blankCtModule := by simpa [blankCtState] using hm
      subst hm'
      exact blankCtKeys_complete key hkey)
  have hpre : prefilled blankCtState.inputs.annualCts blankCtModule
      = writeField "ctsPerYear" (RawValue.number 18000) blankCtModule := by
    unfold prefilled
    rw [if_pos ⟨rfl, hnone⟩]
    show writeField "ctsPerYear"
      (RawValue.number (jsRound (defaultInputs.annualCts * ctShare blankCtModule))) _ = _
    rw [hround]
  refine ⟨hnone, ?_, ?_⟩
  · rw [hload]
    simp only [blankCtState, List.map_cons, List.map_nil]
    rw [show prefilled defaultInputs.annualCts blankCtModule
      = writeField "ctsPerYear" (RawValue.number 18000) blankCtModule from hpre]
  · simp +decide [writeField, RawValue.stored]

/-- C14 (amended): for a state whose module ids are pairwise distinct and whose
modules' values contain all keys of their defaults, loading the payload built by
`saveScenarioUrl` (the encoding being lossless) into a state over the same
catalogue entries reproduces `state.inputs` exactly and every module's enabled
flag and values up to the prefill of `reflectModulesToDom`: a module of kind
`ct` whose `ctsPerYear` is null comes back with its rounded share of the annual
CTs; when no `ct` module has a null `ctsPerYear` the modules are reproduced
exactly. -/
theorem scenario_round_trip (ownKeys : Module → String → Bool) (saved target : State)
    (hnodup : (saved.modules.map fun m => m.id).Nodup)
    (hentry : List.Forall₂ sameEntry target.modules saved.modules)
    (hkeys : ∀ m ∈ saved.modules, ∀ key,
      (m.values key ≠ none ∨ m.defaults key ≠ none) → ownKeys m key = true) :
    loadScenarioFromUrl (saveScenarioUrl ownKeys saved) target
        = Outcome.returned
          ({ inputs := saved.inputs
             capacity := target.capacity
             modules := saved.modules.map (prefilled saved.inputs.annualCts) }, false) ∧
      ((∀ m ∈ saved.modules, m.kind = "ct" → m.values "ctsPerYear" ≠ none) →
        loadScenarioFromUrl (saveScenarioUrl ownKeys saved) target
          = Outcome.returned
            ({ inputs := saved.inputs
               capacity := target.capacity
               modules := saved.modules }, false)) := by
  have h := load_saved ownKeys saved target hnodup hentry hkeys
  refine ⟨h, ?_⟩
  intro hset
  rw [h]
  have hmap : saved.modules.map (prefilled saved.inputs.annualCts) = saved.modules := by
    conv_rhs => rw [← List.map_id saved.modules]
    apply List.map_congr_left
    intro m hm
    exact prefilled_of_set _ m (hset m hm)
  rw [hmap]

/-- C14 (amended) at the scenario state, whose two `ct` modules have 80 CTs a
year: saved and loaded back over itself, it is reproduced exactly. -/
theorem scenario_round_trip_witness :
    loadScenarioFromUrl (saveScenarioUrl (fun _ _ => true) (scenarioState 0 0))
        (scenarioState 0 0)
      = Outcome.returned (scenarioState 0 0, false) :=
  (scenario_round_trip (fun _ _ => true) (scenarioState 0 0) (scenarioState 0 0)
    (by decide)
    (List.Forall₂.cons ⟨rfl, rfl, rfl, rfl, rfl⟩
      (List.Forall₂.cons ⟨rfl, rfl, rfl, rfl, rfl⟩ List.Forall₂.nil))
    (fun _ _ _ _ => rfl)).2
    (by
      intro m hm _
      simp only [scenarioState, List.mem_cons, List.mem_singleton, List.not_mem_nil,
        or_false] at hm
      rcases hm with rfl | rfl <;>
        simp +decide [scenarioModule, Obj.ofList, List.lookup])

/-! ## C15: a pass that fails -/

theorem writeCards_append (page : Page) (written : List (String × CardView))
    (c : String × CardView) :
    writeCards page (written ++ [c])
      = { writeCards page written with
          cards := Function.update (writeCards page written).cards c.1 (some c.2) } := by
  simp [writeCards, List.foldl_append]

theorem writeCards_other (id : String) :
    ∀ (written : List (String × CardView)) (page : Page),
      id ∉ written.map (fun c => c.1) → (writeCards page written).cards id = page.cards id := by
  intro written
  induction written with
  | nil => intro page _; rfl
  | cons c cs ih =>
    intro page h
    simp only [List.map_cons, List.mem_cons, not_or] at h
    show (writeCards _ cs).cards id = _
    rw [ih _ h.2]
    exact Function.update_noteq h.1 _ _

theorem writeCards_some (id : String) :
    ∀ (written : List (String × CardView)) (page : Page),
      page.cards id ≠ none → (writeCards page written).cards id ≠ none := by
  intro written
  induction written with
  | nil => intro page h; exact h
  | cons c cs ih =>
    intro page h
    show (writeCards _ cs).cards id ≠ none
    apply ih
    by_cases hid : id = c.1
    · subst hid
      simp
    · rw [show ({ page with cards := Function.update page.cards c.1 (some c.2) } : Page).cards id
        = page.cards id from Function.update_noteq hid _ _]
      exact h

theorem writeCards_summary (written : List (String × CardView)) :
    ∀ page : Page, (writeCards page written).summaryRows = page.summaryRows ∧
      (writeCards page written).totals = page.totals := by
  induction written with
  | nil => intro page; exact ⟨rfl, rfl⟩
  | cons c cs ih =>
    intro page
    exact ih _

/-- The loop on the page runs the steps of the modules that have a card, writing
their cards, and goes on with the rest. -/
theorem forEachOnPage_prefix (inputs : Inputs) (page0 : Page) (rest : List Module) :
    ∀ (pre : List Module) (acc : PassState),
      (∀ x ∈ pre, page0.cards x.id ≠ none) →
      forEachOnPage inputs (pre ++ rest) acc (writeCards page0 acc.cards)
        = forEachOnPage inputs rest (pre.foldl (moduleStep inputs) acc)
          (writeCards page0 (pre.foldl (moduleStep inputs) acc).cards) := by
  intro pre
  induction pre with
  | nil => intro acc _; rfl
  | cons m ms ih =>
    intro acc h
    have hm : (writeCards page0 acc.cards).cards m.id ≠ none :=
      writeCards_some m.id acc.cards page0 (h m (List.mem_cons_self m ms))
    obtain ⟨card, hcard⟩ := Option.ne_none_iff_exists'.mp hm
    have hstep : moduleStepOnPage inputs acc (writeCards page0 acc.cards) m
        = Outcome.returned (moduleStep inputs acc m,
          writeCards page0 (moduleStep inputs acc m).cards) := by
      unfold moduleStepOnPage
      rw [hcard, moduleStep_cards, writeCards_append]
      have hid : (stepCard inputs acc m).1 = m.id := by
        unfold stepCard
        split_ifs <;> rfl
      rw [hid]
    rw [List.cons_append, forEachOnPage, hstep, List.foldl_cons]
    exact ih (moduleStep inputs acc m) (fun x hx => h x (List.mem_cons_of_mem m hx))

/-- The loop writes one card per module, in the order of the module list. -/
theorem foldl_cards_ids (inputs : Inputs) (modules : List Module) :
    ∀ acc : PassState,
      ((modules.foldl (moduleStep inputs) acc).cards.map fun c => c.1)
        = (acc.cards.map fun c => c.1) ++ modules.map fun m => m.id := by
  induction modules with
  | nil => intro acc; simp
  | cons m ms ih =>
    intro acc
    have hid : (stepCard inputs acc m).1 = m.id := by
      unfold stepCard
      split_ifs <;> rfl
    rw [List.foldl_cons, ih, moduleStep_cards]
    simp [hid]

/-- A pass over modules of which the first without a card is `m`: it alerts,
with the ledger and the cards as the modules before `m` have left them. -/
theorem pass_stops_at_missing_card (state : State) (page : Page) (pre post : List Module)
    (m : Module) (hmodules : state.modules = pre ++ m :: post)
    (hpre : ∀ x ∈ pre, page.cards x.id ≠ none) (hm : page.cards m.id = none) :
    recalcAndRenderOnPage state page
      = ({ state with capacity := (runPass state.inputs pre).capacity },
        writeCards page (runPass state.inputs pre).cards, true) := by
  have hloop := forEachOnPage_prefix state.inputs page (m :: post) pre
    (passStart state.inputs) hpre
  have hstart : writeCards page (passStart state.inputs).cards = page := rfl
  rw [hstart] at hloop
  have hnot : m.id ∉ (runPass state.inputs pre).cards.map (fun c => c.1) := by
    have hids := foldl_cards_ids state.inputs pre (passStart state.inputs)
    simp only [passStart, List.map_nil, List.nil_append] at hids
    rw [runPass, passStart, hids]
    intro hmem
    obtain ⟨x, hx, hxid⟩ := List.mem_map.mp hmem
    apply hpre x hx
    rw [hxid]
    exact hm
  have hnone : (writeCards page (runPass state.inputs pre).cards).cards m.id = none := by
    rw [writeCards_other m.id _ page hnot]
    exact hm
  unfold recalcAndRenderOnPage
  rw [hmodules, hloop, forEachOnPage, moduleStepOnPage]
  simp only [runPass] at hnone
  simp only [hnone, runPass]

/-- A pass over modules that all have their card completes: the state is the
one `recalcAndRender` leaves, every card is written and the summary rendered. -/
theorem pass_completes_with_all_cards (state : State) (page : Page)
    (hall : ∀ x ∈ state.modules, page.cards x.id ≠ none) :
    recalcAndRenderOnPage state page
      = ((recalcAndRender state).1,
        { writeCards page (runPass state.inputs state.modules).cards with
          summaryRows := (runPass state.inputs state.modules).summaryRows
          totals := (runPass state.inputs state.modules).totals }, false) := by
  have hloop := forEachOnPage_prefix state.inputs page [] state.modules
    (passStart state.inputs) hall
  have hstart : writeCards page (passStart state.inputs).cards = page := rfl
  rw [hstart, List.append_nil] at hloop
  unfold recalcAndRenderOnPage
  rw [hloop]
  rfl

theorem scenario_after_x :
    (runPass scenarioInputs [scenarioModule "x" 100]).capacity
        = { ionRemaining := 100, dvRemaining := 20 } ∧
      (runPass scenarioInputs [scenarioModule "x" 100]).cards
        = [("x", enabledCard scenarioInputs (resetCapacity scenarioInputs)
            (scenarioModule "x" 100))] ∧
      (enabledCard scenarioInputs (resetCapacity scenarioInputs)
        (scenarioModule "x" 100)).outputs.rob = 80 := by
  have hen : (scenarioModule "x" 100).enabled = true := rfl
  have hion : requested scenarioInputs (scenarioModule "x" 100) Pool.ion = 0 := by
    simp +decide [requested, share, ionShare, field, scenarioModule, Obj.ofList, List.lookup]
  have hcap : ∀ pool, (resetCapacity scenarioInputs).remaining pool = 100 := by
    intro pool
    cases pool <;>
      norm_num [resetCapacity, Capacity.remaining, scenarioInputs, defaultInputs]
  have hgdv : granted scenarioInputs (resetCapacity scenarioInputs) (scenarioModule "x" 100)
      Pool.dv = 80 := by
    rw [granted_eq_min, scenario_requested, hcap]
    norm_num
  have hgion : granted scenarioInputs (resetCapacity scenarioInputs) (scenarioModule "x" 100)
      Pool.ion = 0 := by
    rw [granted_eq_min, hion, hcap]
    norm_num
  refine ⟨?_, ?_, hgdv⟩
  · simp only [runPass, List.foldl, moduleStep_enabled _ _ _ hen, passStart, draw, hgdv, hgion]
    have h1 := hcap Pool.ion
    have h2 := hcap Pool.dv
    simp only [Capacity.remaining] at h1 h2
    rw [h1, h2]
    norm_num
  · simp only [runPass, List.foldl, moduleStep_enabled _ _ _ hen, passStart, List.nil_append]
    rfl

/-- C15, as stated, fails: in a pass over the modules `x` and `y` on a page that
has no card for `y`, the lookup for `y` throws and the pass alerts; the ledger,
7 and -3 before the pass, is now 100 and 20, and the card of `x`, which showed
0 da Vinci units, shows 80. -/
theorem failed_pass_changes_ledger_and_cards :
    (scenarioState 7 (-3)).capacity = { ionRemaining := 7, dvRemaining := -3 } ∧
      (pageWithCardX.cards "x").map (fun c => c.outputs.rob) = some 0 ∧
      pageWithCardX.cards "y" = none ∧
      (recalcAndRenderOnPage (scenarioState 7 (-3)) pageWithCardX).2.2 = true ∧
      (recalcAndRenderOnPage (scenarioState 7 (-3)) pageWithCardX).1.capacity
        = { ionRemaining := 100, dvRemaining := 20 } ∧
      ((recalcAndRenderOnPage (scenarioState 7 (-3)) pageWithCardX).2.1.cards "x").map
        (fun c => c.outputs.rob) = some 80 := by
  have hpass := pass_stops_at_missing_card (scenarioState 7 (-3)) pageWithCardX
    [scenarioModule "x" 100] [] (scenarioModule "y" 100) rfl
    (by
      intro x hx
      simp only [List.mem_singleton] at hx
      subst hx
      simp +decide [pageWithCardX, scenarioModule])
    (by simp +decide [pageWithCardX, scenarioModule])
  obtain ⟨hcap, hcards, hrob⟩ := scenario_after_x
  have hin : (scenarioState 7 (-3)).inputs = scenarioInputs := rfl
  rw [hin] at hpass
  refine ⟨rfl, by simp +decide [pageWithCardX, freshCard], by simp +decide [pageWithCardX], ?_,
    ?_, ?_⟩
  · rw [hpass]
  · rw [hpass]
    exact hcap
  · rw [hpass, hcards]
    simp [writeCards, hrob]

/-- C15 (amended): when the first module without a card is `m`, the pass throws
at `m` and alerts; no summary rows or totals of the failed pass are rendered
(the summary keeps its content), inputs and modules are unchanged and the cards
of ids that do not occur before `m` are untouched; but the ledger holds the
counters as reset and drawn by the modules before `m`, and the cards of those
modules show the outputs of the failed pass.  A pass over modules that all have
their card completes for all of them. -/
theorem failed_pass_effects (state : State) (page : Page) (pre post : List Module)
    (m : Module) (hmodules : state.modules = pre ++ m :: post)
    (hpre : ∀ x ∈ pre, page.cards x.id ≠ none) (hm : page.cards m.id = none) :
    (recalcAndRenderOnPage state page).2.2 = true ∧
      (recalcAndRenderOnPage state page).1.capacity = (runPass state.inputs pre).capacity ∧
      (recalcAndRenderOnPage state page).1.inputs = state.inputs ∧
      (recalcAndRenderOnPage state page).1.modules = state.modules ∧
      (recalcAndRenderOnPage state page).2.1.summaryRows = page.summaryRows ∧
      (recalcAndRenderOnPage state page).2.1.totals = page.totals ∧
      (recalcAndRenderOnPage state page).2.1.cards
        = (writeCards page (runPass state.inputs pre).cards).cards ∧
      (∀ id, id ∉ pre.map (fun x => x.id) →
        (recalcAndRenderOnPage state page).2.1.cards id = page.cards id) ∧
      (∀ (state' : State) (page' : Page), (∀ x ∈ state'.modules, page'.cards x.id ≠ none) →
        recalcAndRenderOnPage state' page'
          = ((recalcAndRender state').1,
            { writeCards page' (runPass state'.inputs state'.modules).cards with
              summaryRows := (runPass state'.inputs state'.modules).summaryRows
              totals := (runPass state'.inputs state'.modules).totals }, false)) := by
  rw [pass_stops_at_missing_card state page pre post m hmodules hpre hm]
  have hsum := writeCards_summary (runPass state.inputs pre).cards page
  refine ⟨rfl, rfl, rfl, rfl, hsum.1, hsum.2, rfl, ?_, pass_completes_with_all_cards⟩
  intro id hid
  apply writeCards_other
  have hids := foldl_cards_ids state.inputs pre (passStart state.inputs)
  simp only [passStart, List.map_nil, List.nil_append] at hids
  rw [runPass, passStart, hids]
  exact hid

/-- C15 (amended) at the pass over `x` and `y` on the page without a card for
`y`: the summary stays empty and the pass alerts. -/
theorem failed_pass_effects_witness :
    (recalcAndRenderOnPage (scenarioState 7 (-3)) pageWithCardX).2.2 = true ∧
      (recalcAndRenderOnPage (scenarioState 7 (-3)) pageWithCardX).2.1.summaryRows = [] :=
  ⟨(failed_pass_effects (scenarioState 7 (-3)) pageWithCardX
      [scenarioModule "x" 100] [] (scenarioModule "y" 100) rfl
      (by
        intro x hx
        simp only [List.mem_singleton] at hx
        subst hx
        simp +decide [pageWithCardX, scenarioModule])
      (by simp +decide [pageWithCardX, scenarioModule])).1,
    (failed_pass_effects (scenarioState 7 (-3)) pageWithCardX
      [scenarioModule "x" 100] [] (scenarioModule "y" 100) rfl
      (by
        intro x hx
        simp only [List.mem_singleton] at hx
        subst hx
        simp +decide [pageWithCardX, scenarioModule])
      (by simp +decide [pageWithCardX, scenarioModule])).2.2.2.2.1⟩

end IonDavinci
